import Mathlib

/-!
Verification development for the `schemas` subsystem of the
terraform-provider-idsec repository: the immutability plan modifiers,
the plan/state reconciler, the value converter (decode/encode), the
attribute-tree deep merge, schema derivation and deep copy.

Each Go function referenced by a claim is shallowly embedded as an
executable Lean definition over explicit models of the Terraform
tri-state attribute values and of Go reflect values.
-/

namespace Idsec

/-! ## Tri-state framework values

A Terraform framework scalar value is null, unknown, or a known value.
`TriVal α` mirrors the internal state of `basetypes.StringValue`,
`Int64Value`, `BoolValue`, and of container values (whose payload is then
a list of element values).  `Equal` on framework values compares the
state and, when both are known, the payloads; this is exactly decidable
equality on `TriVal α`.
-/

inductive TriVal (α : Type) : Type where
  | null : TriVal α
  | unknown : TriVal α
  | known (v : α) : TriVal α
deriving DecidableEq, Repr

namespace TriVal

def isUnknown {α : Type} : TriVal α → Bool
  | .unknown => true
  | _ => false

def isNull {α : Type} : TriVal α → Bool
  | .null => true
  | _ => false

/-- `ValueString` on a `basetypes.StringValue`: the known value, or the
zero string for null/unknown. -/
def valueString : TriVal String → String
  | .known s => s
  | _ => ""

/-- `ValueInt64`: the known value, or 0 for null/unknown. -/
def valueInt64 : TriVal Int → Int
  | .known n => n
  | _ => 0

/-- `ValueBool`: the known value, or false for null/unknown. -/
def valueBool : TriVal Bool → Bool
  | .known b => b
  | _ => false

end TriVal

/-! ## Immutability guard (schemas_planmodifiers.go)

`planmodifier.StringRequest` (and the Int64/Bool/List/Set/Map variants)
carry the raw prior state and forthcoming plan (whose nullness signals
create/destroy), the attribute's plan, state and config values, and the
attribute path.  The response accumulates diagnostics; each modifier adds
at most one attribute error, so the response is modeled as
`Option ImmDiag`.
-/

structure ImmReq (α : Type) where
  /-- `req.State.Raw.IsNull()`: no prior state, the resource is being created. -/
  stateRawNull : Bool
  /-- `req.Plan.Raw.IsNull()`: no forthcoming plan, the resource is being destroyed. -/
  planRawNull : Bool
  planValue : TriVal α
  stateValue : TriVal α
  configValue : TriVal α
  path : String
deriving Repr

/-- The detail text of an immutable-attribute error: scalar kinds render
the current and attempted values (`errImmutableAttributeDetailWithValues`),
container kinds render only the path (`errImmutableAttributeDetailSimple`). -/
inductive ImmDetail : Type where
  | withValues (current attempted : String) : ImmDetail
  | simple : ImmDetail
deriving DecidableEq, Repr

/-- A structured attribute error produced by `resp.Diagnostics.AddAttributeError`. -/
structure ImmDiag where
  path : String
  summary : String
  detail : ImmDetail
deriving DecidableEq, Repr

def errImmutableAttributeSummary : String := "Immutable Attribute Cannot Be Changed"

/-- `ImmutableStringModifier.PlanModifyString`. -/
def PlanModifyString (req : ImmReq String) : Option ImmDiag :=
  if req.stateRawNull then none
  else if req.planValue.isUnknown then none
  else if req.configValue.isUnknown then none
  else if req.planRawNull then none
  else if req.planValue = req.stateValue then none
  else some ⟨req.path, errImmutableAttributeSummary,
    .withValues req.stateValue.valueString req.planValue.valueString⟩

/-- `ImmutableInt64Modifier.PlanModifyInt64`. -/
def PlanModifyInt64 (req : ImmReq Int) : Option ImmDiag :=
  if req.stateRawNull then none
  else if req.planValue.isUnknown then none
  else if req.configValue.isUnknown then none
  else if req.planRawNull then none
  else if req.planValue = req.stateValue then none
  else some ⟨req.path, errImmutableAttributeSummary,
    .withValues (toString req.stateValue.valueInt64) (toString req.planValue.valueInt64)⟩

/-- `ImmutableBoolModifier.PlanModifyBool`. -/
def PlanModifyBool (req : ImmReq Bool) : Option ImmDiag :=
  if req.stateRawNull then none
  else if req.planValue.isUnknown then none
  else if req.configValue.isUnknown then none
  else if req.planRawNull then none
  else if req.planValue = req.stateValue then none
  else some ⟨req.path, errImmutableAttributeSummary,
    .withValues (toString req.stateValue.valueBool) (toString req.planValue.valueBool)⟩

/-- `ImmutableListModifier.PlanModifyList`.  A list value's payload is its
element list; `Equal` on lists is elementwise, i.e. decidable equality. -/
def PlanModifyList {α : Type} [DecidableEq α] (req : ImmReq (List (TriVal α))) : Option ImmDiag :=
  if req.stateRawNull then none
  else if req.planValue.isUnknown then none
  else if req.configValue.isUnknown then none
  else if req.planRawNull then none
  else if req.planValue = req.stateValue then none
  else some ⟨req.path, errImmutableAttributeSummary, .simple⟩

/-- `ImmutableSetModifier.PlanModifySet`. -/
def PlanModifySet {α : Type} [DecidableEq α] (req : ImmReq (List (TriVal α))) : Option ImmDiag :=
  if req.stateRawNull then none
  else if req.planValue.isUnknown then none
  else if req.configValue.isUnknown then none
  else if req.planRawNull then none
  else if req.planValue = req.stateValue then none
  else some ⟨req.path, errImmutableAttributeSummary, .simple⟩

/-- `ImmutableMapModifier.PlanModifyMap`: the payload maps string keys to
element values. -/
def PlanModifyMap {α : Type} [DecidableEq α]
    (req : ImmReq (List (String × TriVal α))) : Option ImmDiag :=
  if req.stateRawNull then none
  else if req.planValue.isUnknown then none
  else if req.configValue.isUnknown then none
  else if req.planRawNull then none
  else if req.planValue = req.stateValue then none
  else some ⟨req.path, errImmutableAttributeSummary, .simple⟩

/-- The single rejection condition shared by all six immutability
modifiers: prior state exists, the plan is not a destroy, both the plan
value and the config value are resolved, and the plan value differs from
the state value. -/
def immRejects {α : Type} [DecidableEq α] (req : ImmReq α) : Bool :=
  !req.stateRawNull && !req.planValue.isUnknown && !req.configValue.isUnknown &&
    !req.planRawNull && req.planValue ≠ req.stateValue

lemma imm_chain_eq {α : Type} [DecidableEq α] (req : ImmReq α) (d : ImmDiag) :
    (if req.stateRawNull then none
     else if req.planValue.isUnknown then none
     else if req.configValue.isUnknown then none
     else if req.planRawNull then none
     else if req.planValue = req.stateValue then none
     else some d) = if immRejects req then some d else none := by
  by_cases h1 : req.stateRawNull <;>
    by_cases h2 : req.planValue.isUnknown <;>
      by_cases h3 : req.configValue.isUnknown <;>
        by_cases h4 : req.planRawNull <;>
          by_cases h5 : req.planValue = req.stateValue <;>
            simp [immRejects, h1, h2, h3, h4, h5]

/-- C1: each of the six immutability plan modifiers rejects exactly when
prior state exists (`State.Raw` not null), the plan is not a destroy
(`Plan.Raw` not null), both the plan value and the config value are
resolved (not unknown), and the plan value differs from the state value;
the rejection diagnostic names the attribute path and, for the scalar
kinds (string, int64, bool), the current and attempted values, while the
container kinds (list, set, map) report only the path; and whenever the
plan value equals the state value no modifier rejects, regardless of the
value. -/
theorem immutability_guard_characterization :
    (∀ req : ImmReq String, PlanModifyString req =
      if immRejects req then
        some ⟨req.path, errImmutableAttributeSummary,
          .withValues req.stateValue.valueString req.planValue.valueString⟩
      else none) ∧
    (∀ req : ImmReq Int, PlanModifyInt64 req =
      if immRejects req then
        some ⟨req.path, errImmutableAttributeSummary,
          .withValues (toString req.stateValue.valueInt64) (toString req.planValue.valueInt64)⟩
      else none) ∧
    (∀ req : ImmReq Bool, PlanModifyBool req =
      if immRejects req then
        some ⟨req.path, errImmutableAttributeSummary,
          .withValues (toString req.stateValue.valueBool) (toString req.planValue.valueBool)⟩
      else none) ∧
    (∀ (α : Type) (_ : DecidableEq α) (req : ImmReq (List (TriVal α))),
      PlanModifyList req =
        if immRejects req then some ⟨req.path, errImmutableAttributeSummary, .simple⟩
        else none) ∧
    (∀ (α : Type) (_ : DecidableEq α) (req : ImmReq (List (TriVal α))),
      PlanModifySet req =
        if immRejects req then some ⟨req.path, errImmutableAttributeSummary, .simple⟩
        else none) ∧
    (∀ (α : Type) (_ : DecidableEq α) (req : ImmReq (List (String × TriVal α))),
      PlanModifyMap req =
        if immRejects req then some ⟨req.path, errImmutableAttributeSummary, .simple⟩
        else none) ∧
    (∀ req : ImmReq String, req.planValue = req.stateValue → PlanModifyString req = none) ∧
    (∀ req : ImmReq Int, req.planValue = req.stateValue → PlanModifyInt64 req = none) ∧
    (∀ req : ImmReq Bool, req.planValue = req.stateValue → PlanModifyBool req = none) ∧
    (∀ (α : Type) (_ : DecidableEq α) (req : ImmReq (List (TriVal α))),
      req.planValue = req.stateValue → PlanModifyList req = none) ∧
    (∀ (α : Type) (_ : DecidableEq α) (req : ImmReq (List (TriVal α))),
      req.planValue = req.stateValue → PlanModifySet req = none) ∧
    (∀ (α : Type) (_ : DecidableEq α) (req : ImmReq (List (String × TriVal α))),
      req.planValue = req.stateValue → PlanModifyMap req = none) := by
  refine ⟨?_, ?_, ?_, ?_, ?_, ?_, ?_, ?_, ?_, ?_, ?_, ?_⟩
  · intro req; rw [PlanModifyString, imm_chain_eq]
  · intro req; rw [PlanModifyInt64, imm_chain_eq]
  · intro req; rw [PlanModifyBool, imm_chain_eq]
  · intro α inst req; rw [PlanModifyList, imm_chain_eq]
  · intro α inst req; rw [PlanModifySet, imm_chain_eq]
  · intro α inst req; rw [PlanModifyMap, imm_chain_eq]
  · intro req h; simp [PlanModifyString, h]
  · intro req h; simp [PlanModifyInt64, h]
  · intro req h; simp [PlanModifyBool, h]
  · intro α inst req h; simp [PlanModifyList, h]
  · intro α inst req h; simp [PlanModifySet, h]
  · intro α inst req h; simp [PlanModifyMap, h]

/-- C1 witness: the spec's scenario — guard on attribute `id`, state `"a"`,
plan `"b"`, both resolved — rejects naming path `id`, current `"a"`,
attempted `"b"`; and an update whose plan value equals its state value is
allowed. -/
theorem immutability_guard_characterization_witness :
    PlanModifyString ⟨false, false, .known "b", .known "a", .known "b", "id"⟩ =
      some ⟨"id", errImmutableAttributeSummary, .withValues "a" "b"⟩ ∧
    PlanModifyString ⟨false, false, .known "a", .known "a", .known "a", "id"⟩ = none := by
  have h := immutability_guard_characterization
  constructor
  · rw [h.1 ⟨false, false, .known "b", .known "a", .known "b", "id"⟩]; decide
  · exact h.2.2.2.2.2.2.1 ⟨false, false, .known "a", .known "a", .known "a", "id"⟩ rfl

/-! ## Attribute types and tri-state attribute values (wire model)

`TType` mirrors `attr.Type`: the Terraform type of an attribute.  `TVal`
mirrors `attr.Value`: each concrete framework value (`types.String`,
`types.List`, `types.Object`, …) carries its own null/unknown/known
state plus its payload.  Nested lists are represented by the companion
mutual types `TTypeList`/`TTypePairs`/`TValList`/`TValPairs` so that all
functions below are structurally recursive (and hence evaluate on
concrete inputs).  Known float/number payloads are not needed by any
claim, so `vFloat`/`vNum` carry only their state. -/

mutual
inductive TType : Type where
  | tString | tBool | tInt64 | tFloat64 | tNumber
  | tList (elem : TType)
  | tSet (elem : TType)
  | tMap (elem : TType)
  | tObject (attrTypes : TTypePairs)
  | tTuple (elems : TTypeList)
  | tDynamic

inductive TTypeList : Type where
  | nil
  | cons (hd : TType) (tl : TTypeList)

inductive TTypePairs : Type where
  | nil
  | cons (k : String) (t : TType) (tl : TTypePairs)
end

mutual
/-- `attr.Type` equality (`t.Equal(u)`), structural. -/
def TType.beq : TType → TType → Bool
  | .tString, .tString => true
  | .tBool, .tBool => true
  | .tInt64, .tInt64 => true
  | .tFloat64, .tFloat64 => true
  | .tNumber, .tNumber => true
  | .tList a, .tList b => TType.beq a b
  | .tSet a, .tSet b => TType.beq a b
  | .tMap a, .tMap b => TType.beq a b
  | .tObject as, .tObject bs => TTypePairs.beq as bs
  | .tTuple as, .tTuple bs => TTypeList.beq as bs
  | .tDynamic, .tDynamic => true
  | _, _ => false

def TTypeList.beq : TTypeList → TTypeList → Bool
  | .nil, .nil => true
  | .cons a as, .cons b bs => TType.beq a b && TTypeList.beq as bs
  | _, _ => false

def TTypePairs.beq : TTypePairs → TTypePairs → Bool
  | .nil, .nil => true
  | .cons k a as, .cons l b bs => k == l && TType.beq a b && TTypePairs.beq as bs
  | _, _ => false
end

def TType.isObjectT : TType → Bool
  | .tObject _ => true
  | _ => false

def TType.isMapT : TType → Bool
  | .tMap _ => true
  | _ => false

def TType.isListT : TType → Bool
  | .tList _ => true
  | _ => false

def TType.isSetT : TType → Bool
  | .tSet _ => true
  | _ => false

def TTypePairs.lookupT : TTypePairs → String → Option TType
  | .nil, _ => none
  | .cons k t rest, key => if k = key then some t else TTypePairs.lookupT rest key

/-- The internal value state of a framework value. -/
inductive VState : Type where
  | null | unknown | known

mutual
inductive TVal : Type where
  | vStr (st : VState) (s : String)
  | vBool (st : VState) (b : Bool)
  | vInt (st : VState) (n : Int)
  | vFloat (st : VState)
  | vNum (st : VState)
  | vList (elem : TType) (st : VState) (es : TValList)
  | vSet (elem : TType) (st : VState) (es : TValList)
  | vMap (elem : TType) (st : VState) (es : TValPairs)
  | vObj (attrTypes : TTypePairs) (st : VState) (attrs : TValPairs)
  | vTuple (elems : TTypeList) (st : VState) (es : TValList)
  | vDyn (st : VState) (underlyingJson : String)

inductive TValList : Type where
  | nil
  | cons (hd : TVal) (tl : TValList)

inductive TValPairs : Type where
  | nil
  | cons (k : String) (v : TVal) (tl : TValPairs)
end

namespace TVal

def state : TVal → VState
  | .vStr st _ => st
  | .vBool st _ => st
  | .vInt st _ => st
  | .vFloat st => st
  | .vNum st => st
  | .vList _ st _ => st
  | .vSet _ st _ => st
  | .vMap _ st _ => st
  | .vObj _ st _ => st
  | .vTuple _ st _ => st
  | .vDyn st _ => st

/-- `val.IsNull()`. -/
def isNull (v : TVal) : Bool :=
  match v.state with
  | .null => true
  | _ => false

/-- `val.IsUnknown()`. -/
def isUnknown (v : TVal) : Bool :=
  match v.state with
  | .unknown => true
  | _ => false

/-- `val.Type(ctx)`. -/
def typeOf : TVal → TType
  | .vStr _ _ => .tString
  | .vBool _ _ => .tBool
  | .vInt _ _ => .tInt64
  | .vFloat _ => .tFloat64
  | .vNum _ => .tNumber
  | .vList elem _ _ => .tList elem
  | .vSet elem _ _ => .tSet elem
  | .vMap elem _ _ => .tMap elem
  | .vObj ats _ _ => .tObject ats
  | .vTuple ts _ _ => .tTuple ts
  | .vDyn _ _ => .tDynamic

/-- `Elements()` of a list/set/tuple value: the payload when known,
nil for null/unknown values (the framework stores no elements there). -/
def elementsL : TVal → TValList
  | .vList _ .known es => es
  | .vSet _ .known es => es
  | .vTuple _ .known es => es
  | _ => .nil

/-- `Elements()` of a map value. -/
def elementsM : TVal → TValPairs
  | .vMap _ .known es => es
  | _ => .nil

/-- `Attributes()` of an object value. -/
def attributesO : TVal → TValPairs
  | .vObj _ .known attrs => attrs
  | _ => .nil

/-- `AttributeTypes(ctx)` of an object value. -/
def attributeTypesO : TVal → TTypePairs
  | .vObj ats _ _ => ats
  | _ => .nil

end TVal

namespace TValPairs

/-- Map lookup `m[key]`. -/
def lookupA : TValPairs → String → Option TVal
  | .nil, _ => none
  | .cons k v rest, key => if k = key then some v else lookupA rest key

/-- Map write `m[key] = v`: replace the binding if present, else add it. -/
def upsert : TValPairs → String → TVal → TValPairs
  | .nil, key, v => .cons key v .nil
  | .cons k w rest, key, v =>
      if k = key then .cons key v rest else .cons k w (upsert rest key v)

def keys : TValPairs → List String
  | .nil => []
  | .cons k _ rest => k :: keys rest

/-- Every value in the map has the given element type (`MapValue` validation). -/
def allType : TValPairs → TType → Bool
  | .nil, _ => true
  | .cons _ v rest, t => TType.beq v.typeOf t && allType rest t

end TValPairs

namespace TValList

def length : TValList → Nat
  | .nil => 0
  | .cons _ tl => tl.length + 1

def get? : TValList → Nat → Option TVal
  | .nil, _ => none
  | .cons hd _, 0 => some hd
  | .cons _ tl, n + 1 => get? tl n

def head? : TValList → Option TVal
  | .nil => none
  | .cons hd _ => some hd

def tail : TValList → TValList
  | .nil => .nil
  | .cons _ tl => tl

/-- Every element has the given type (`ListValue`/`SetValue` validation). -/
def allType : TValList → TType → Bool
  | .nil, _ => true
  | .cons v rest, t => TType.beq v.typeOf t && allType rest t

end TValList

/-- `types.ListValue(elemType, elems)`: a known list when every element's
type matches, otherwise (validation diagnostics, discarded by the callers
with `_`) the unknown list of that type. -/
def listValue (elem : TType) (es : TValList) : TVal :=
  if es.allType elem then .vList elem .known es else .vList elem .unknown .nil

/-- `types.SetValue(elemType, elems)`. -/
def setValue (elem : TType) (es : TValList) : TVal :=
  if es.allType elem then .vSet elem .known es else .vSet elem .unknown .nil

/-- `types.MapValue(elemType, elems)`. -/
def mapValue (elem : TType) (es : TValPairs) : TVal :=
  if es.allType elem then .vMap elem .known es else .vMap elem .unknown .nil

/-- Every declared attribute is present in the values with a matching type. -/
def attrsMatch : TTypePairs → TValPairs → Bool
  | .nil, _ => true
  | .cons k t rest, vs =>
      (match vs.lookupA k with
       | some v => TType.beq v.typeOf t
       | none => false) && attrsMatch rest vs

/-- Every supplied value's key is a declared attribute. -/
def attrsDeclared : TValPairs → TTypePairs → Bool
  | .nil, _ => true
  | .cons k _ rest, ats => (ats.lookupT k).isSome && attrsDeclared rest ats

/-- `types.ObjectValue(attributeTypes, attributes)`: a known object when
attributes and declared types correspond exactly, otherwise the unknown
object of that type. -/
def objectValue (ats : TTypePairs) (vs : TValPairs) : TVal :=
  if attrsMatch ats vs && attrsDeclared vs ats then .vObj ats .known vs
  else .vObj ats .unknown .nil

/-- `getNullValue`: the type-appropriate null value. -/
def getNullValue : TType → TVal
  | .tString => .vStr .null ""
  | .tBool => .vBool .null false
  | .tInt64 => .vInt .null 0
  | .tFloat64 => .vFloat .null
  | .tNumber => .vNum .null
  | .tList e => .vList e .null .nil
  | .tSet e => .vSet e .null .nil
  | .tMap e => .vMap e .null .nil
  | .tObject ats => .vObj ats .null .nil
  | .tTuple ts => .vTuple ts .null .nil
  | .tDynamic => .vDyn .null ""

/-! ## Attribute-tree deep merge (part_006, `mergePlanAndStateMap` and
its helpers)

The Go functions mutate `existingAttrs` in place; here they return the
updated map.  `mergeSetAttribute` makes no recursive call; the other four
recurse into the plan value and are defined by mutual structural
recursion on its structure. -/

/-- `mergeSetAttribute`: when the set's element type is Object, null and
unknown incoming elements are filtered out and the remainder replaces the
existing set; otherwise the incoming set replaces the existing one as-is. -/
def mergeSetAttribute (existing : TValPairs) (key : String) (planVal : TVal) : TValPairs :=
  match planVal with
  | .vSet pElem pSt pEs =>
      if !pElem.isObjectT then existing.upsert key (.vSet pElem pSt pEs)
      else
        existing.upsert key (setValue pElem (filterResolved (TVal.elementsL (.vSet pElem pSt pEs))))
  | v => existing.upsert key v
where
  /-- the `planElems` filter loop: drop null/unknown elements. -/
  filterResolved : TValList → TValList
    | .nil => .nil
    | .cons e rest =>
        if e.isNull || e.isUnknown then filterResolved rest
        else .cons e (filterResolved rest)

mutual

/-- `mergePlanAndStateMap(ctx, existingAttrs, attrsToMerge)`: fold the
incoming attributes into the existing ones.  Null/unknown incoming values
are skipped; object, map, list and set values are dispatched to their
merge helpers; any other value overwrites the existing one. -/
def mergePlanAndStateMap (existing : TValPairs) (attrsToMerge : TValPairs) : TValPairs :=
  match attrsToMerge with
  | .nil => existing
  | .cons key planVal rest =>
      mergePlanAndStateMap
        (if planVal.isNull || planVal.isUnknown then existing
         else if planVal.typeOf.isObjectT then mergeObjectAttribute existing key planVal
         else if planVal.typeOf.isMapT then mergeMapAttribute existing key planVal
         else if planVal.typeOf.isListT then mergeListAttribute existing key planVal
         else if planVal.typeOf.isSetT then mergeSetAttribute existing key planVal
         else existing.upsert key planVal)
        rest
  termination_by structural attrsToMerge

/-- `mergeObjectAttribute`: deep-merge an incoming object attribute into
the existing object at `key`; replace when the existing value is absent
or not an object.  (A null/unknown incoming object has no attributes, so
its merge leaves the existing attributes unchanged.) -/
def mergeObjectAttribute (existing : TValPairs) (key : String) (planVal : TVal) : TValPairs :=
  match planVal with
  | .vObj pAts pSt pAttrs =>
      (match existing.lookupA key with
       | none => existing.upsert key (.vObj pAts pSt pAttrs)
       | some existingVal =>
         match existingVal with
         | .vObj eAts eSt eAttrs =>
             let mergedInner :=
               match pSt with
               | .known => mergePlanAndStateMap (TVal.attributesO (.vObj eAts eSt eAttrs)) pAttrs
               | _ => TVal.attributesO (.vObj eAts eSt eAttrs)
             existing.upsert key (objectValue eAts mergedInner)
         | _ => existing.upsert key (.vObj pAts pSt pAttrs))
  | v => existing.upsert key v
  termination_by structural planVal

/-- `mergeMapAttribute`: when the incoming map's element type is Object
and the existing value at `key` is a map, merge key-by-key via
`mergeMapElements`; otherwise the incoming map replaces the existing
value. -/
def mergeMapAttribute (existing : TValPairs) (key : String) (planVal : TVal) : TValPairs :=
  match planVal with
  | .vMap pElem pSt pEs =>
      (match existing.lookupA key with
       | none => existing.upsert key (.vMap pElem pSt pEs)
       | some existingVal =>
         match existingVal with
         | .vMap eElem eSt eEs =>
             if !pElem.isObjectT then existing.upsert key (.vMap pElem pSt pEs)
             else
               let merged :=
                 match pSt with
                 | .known => mergeMapElements (TVal.elementsM (.vMap eElem eSt eEs)) pEs
                 | _ => TVal.elementsM (.vMap eElem eSt eEs)
               existing.upsert key (mapValue pElem merged)
         | _ => existing.upsert key (.vMap pElem pSt pEs))
  | v => existing.upsert key v
  termination_by structural planVal

/-- The per-key loop of `mergeMapAttribute`: null/unknown incoming map
entries are skipped, entries absent from the merged map are added, and an
entry whose incoming and existing values are both objects is replaced by
their recursive merge; otherwise the incoming entry wins. -/
def mergeMapElements (merged : TValPairs) (planElems : TValPairs) : TValPairs :=
  match planElems with
  | .nil => merged
  | .cons k pv rest => mergeMapElements (mergeMapElemStep merged k pv) rest
  termination_by structural planElems

/-- One iteration of the per-key loop of `mergeMapAttribute` for map key
`k` with incoming element `pv`: null/unknown incoming entries are
skipped, entries absent from the merged map are added, and an entry whose
incoming and existing values are both objects is replaced by their
recursive merge; otherwise the incoming entry wins. -/
def mergeMapElemStep (merged : TValPairs) (k : String) (pv : TVal) : TValPairs :=
  if pv.isNull || pv.isUnknown then merged
  else
    match merged.lookupA k with
    | none => merged.upsert k pv
    | some ev =>
      match pv with
      | .vObj pAts pSt pAttrs =>
          (match ev with
           | .vObj eAts eSt eAttrs =>
               let inner :=
                 match pSt with
                 | .known => mergePlanAndStateMap (TVal.attributesO (.vObj eAts eSt eAttrs)) pAttrs
                 | _ => TVal.attributesO (.vObj eAts eSt eAttrs)
               merged.upsert k (objectValue eAts inner)
           | _ => merged.upsert k (.vObj pAts pSt pAttrs))
      | pv' => merged.upsert k pv'
  termination_by structural pv

/-- `mergeListAttribute`: when the incoming list's element type is Object
and the existing value at `key` is a known list, merge index-by-index via
`mergeListElems`; otherwise the incoming list replaces the existing
value. -/
def mergeListAttribute (existing : TValPairs) (key : String) (planVal : TVal) : TValPairs :=
  match planVal with
  | .vList pElem pSt pEs =>
      if !pElem.isObjectT then existing.upsert key (.vList pElem pSt pEs)
      else
        (match existing.lookupA key with
         | none => existing.upsert key (.vList pElem pSt pEs)
         | some existingVal =>
           match existingVal with
           | .vList eElem eSt eEs =>
               if (TVal.vList eElem eSt eEs).isNull || (TVal.vList eElem eSt eEs).isUnknown then
                 existing.upsert key (.vList pElem pSt pEs)
               else
                 let merged :=
                   match pSt with
                   | .known => mergeListElems pEs (TVal.elementsL (.vList eElem eSt eEs))
                   | _ => .nil
                 existing.upsert key (listValue pElem merged)
           | _ => existing.upsert key (.vList pElem pSt pEs))
  | v => existing.upsert key v
  termination_by structural planVal

/-- The index loop of `mergeListAttribute`: the merged list has one
element per incoming element, each produced by `mergeListElem` from the
incoming element and the existing element at the same index (if any). -/
def mergeListElems (planElems : TValList) (existingElems : TValList) : TValList :=
  match planElems with
  | .nil => .nil
  | .cons p ps => .cons (mergeListElem p existingElems.head?) (mergeListElems ps existingElems.tail)
  termination_by structural planElems

/-- One index of the list merge: a null/unknown incoming element keeps
the existing element at that index (when in bounds); incoming and
existing objects merge recursively; otherwise the incoming element wins. -/
def mergeListElem (p : TVal) (e? : Option TVal) : TVal :=
  if p.isNull || p.isUnknown then
    match e? with
    | some e => e
    | none => p
  else
    match p with
    | .vObj pAts pSt pAttrs =>
        (match e? with
         | none => .vObj pAts pSt pAttrs
         | some e =>
           match e with
           | .vObj eAts eSt eAttrs =>
               (match eSt with
                | .known =>
                    let inner :=
                      match pSt with
                      | .known => mergePlanAndStateMap eAttrs pAttrs
                      | _ => eAttrs
                    objectValue eAts inner
                | _ => .vObj pAts pSt pAttrs)
           | _ => .vObj pAts pSt pAttrs)
    | p' => p'
  termination_by structural p

end

/-- The loop body of `mergePlanAndStateMap` for attribute `key` with
incoming value `planVal`, as a named function (definitionally the inline
body above). -/
def mergeAttrStep (existing : TValPairs) (key : String) (planVal : TVal) : TValPairs :=
  if planVal.isNull || planVal.isUnknown then existing
  else if planVal.typeOf.isObjectT then mergeObjectAttribute existing key planVal
  else if planVal.typeOf.isMapT then mergeMapAttribute existing key planVal
  else if planVal.typeOf.isListT then mergeListAttribute existing key planVal
  else if planVal.typeOf.isSetT then mergeSetAttribute existing key planVal
  else existing.upsert key planVal

lemma mergePlanAndStateMap_nil (existing : TValPairs) :
    mergePlanAndStateMap existing .nil = existing := rfl

lemma mergePlanAndStateMap_cons (existing : TValPairs) (key : String) (planVal : TVal)
    (rest : TValPairs) :
    mergePlanAndStateMap existing (.cons key planVal rest) =
      mergePlanAndStateMap (mergeAttrStep existing key planVal) rest := rfl

lemma mergeMapElements_nil (merged : TValPairs) : mergeMapElements merged .nil = merged := rfl

lemma mergeMapElements_cons (merged : TValPairs) (k : String) (pv : TVal) (rest : TValPairs) :
    mergeMapElements merged (.cons k pv rest) =
      mergeMapElements (mergeMapElemStep merged k pv) rest := rfl

/-- Single-motive structural induction for `TValPairs` (the generated
recursor of the mutual family has multiple motives). -/
lemma TValPairs.indVP {motive : TValPairs → Prop} (nil : motive .nil)
    (cons : ∀ k v rest, motive rest → motive (.cons k v rest)) : ∀ m, motive m
  | .nil => nil
  | .cons k v rest => cons k v rest (TValPairs.indVP nil cons rest)
  termination_by structural m => m

/-- Single-motive structural induction for `TValList`. -/
lemma TValList.indVL {motive : TValList → Prop} (nil : motive .nil)
    (cons : ∀ v rest, motive rest → motive (.cons v rest)) : ∀ l, motive l
  | .nil => nil
  | .cons v rest => cons v rest (TValList.indVL nil cons rest)
  termination_by structural l => l

lemma lookupA_upsert_self (m : TValPairs) (k : String) (v : TVal) :
    (m.upsert k v).lookupA k = some v := by
  induction m using TValPairs.indVP with
  | nil => simp [TValPairs.upsert, TValPairs.lookupA]
  | cons k' w rest ih =>
      by_cases h : k' = k <;> simp [TValPairs.upsert, TValPairs.lookupA, h, ih]

lemma lookupA_upsert_ne (m : TValPairs) (k key : String) (v : TVal) (h : k ≠ key) :
    (m.upsert k v).lookupA key = m.lookupA key := by
  induction m using TValPairs.indVP with
  | nil => simp [TValPairs.upsert, TValPairs.lookupA, h]
  | cons k' w rest ih =>
      by_cases h' : k' = k
      · subst h'
        simp [TValPairs.upsert, TValPairs.lookupA, h, ih]
      · simp [TValPairs.upsert, TValPairs.lookupA, h', ih]

lemma mergeObjectAttribute_is_upsert (e : TValPairs) (k : String) (p : TVal) :
    ∃ w, mergeObjectAttribute e k p = e.upsert k w := by
  rw [mergeObjectAttribute.eq_def]
  cases p
  case vObj pAts pSt pAttrs =>
    cases hm : e.lookupA k with
    | none => simp only [hm]; exact ⟨_, rfl⟩
    | some ev => simp only [hm]; cases ev <;> exact ⟨_, rfl⟩
  all_goals exact ⟨_, rfl⟩

lemma mergeMapAttribute_is_upsert (e : TValPairs) (k : String) (p : TVal) :
    ∃ w, mergeMapAttribute e k p = e.upsert k w := by
  rw [mergeMapAttribute.eq_def]
  cases p
  case vMap pElem pSt pEs =>
    cases hm : e.lookupA k with
    | none => simp only [hm]; exact ⟨_, rfl⟩
    | some ev =>
        simp only [hm]
        cases ev
        case vMap eElem eSt eEs =>
          by_cases ho : (!pElem.isObjectT) = true <;> simp only [ho, if_true] <;>
            first
              | exact ⟨_, rfl⟩
              | (simp only [Bool.not_eq_true] at ho; simp only [ho, Bool.false_eq_true, if_false];
                 exact ⟨_, rfl⟩)
        all_goals exact ⟨_, rfl⟩
  all_goals exact ⟨_, rfl⟩

lemma mergeListAttribute_is_upsert (e : TValPairs) (k : String) (p : TVal) :
    ∃ w, mergeListAttribute e k p = e.upsert k w := by
  rw [mergeListAttribute.eq_def]
  cases p
  case vList pElem pSt pEs =>
    by_cases ho : (!pElem.isObjectT) = true
    · simp only [ho, if_true]; exact ⟨_, rfl⟩
    · simp only [Bool.not_eq_true] at ho
      simp only [ho, Bool.false_eq_true, if_false]
      cases hm : e.lookupA k with
      | none => simp only [hm]; exact ⟨_, rfl⟩
      | some ev =>
          simp only [hm]
          cases ev
          all_goals try exact ⟨_, rfl⟩
          rename_i eElem eSt eEs
          by_cases hn :
              ((TVal.vList eElem eSt eEs).isNull || (TVal.vList eElem eSt eEs).isUnknown) = true
          · simp only [hn, if_true]; exact ⟨_, rfl⟩
          · simp only [Bool.not_eq_true] at hn
            simp only [hn, Bool.false_eq_true, if_false]
            exact ⟨_, rfl⟩
  all_goals exact ⟨_, rfl⟩

lemma mergeSetAttribute_is_upsert (e : TValPairs) (k : String) (p : TVal) :
    ∃ w, mergeSetAttribute e k p = e.upsert k w := by
  cases p
  case vSet pElem pSt pEs =>
    simp only [mergeSetAttribute]
    by_cases ho : (!pElem.isObjectT) = true
    · simp only [ho, if_true]; exact ⟨_, rfl⟩
    · simp only [Bool.not_eq_true] at ho
      simp only [ho, Bool.false_eq_true, if_false]
      exact ⟨_, rfl⟩
  all_goals simp only [mergeSetAttribute] <;> exact ⟨_, rfl⟩

lemma mergeAttrStep_eq_or_upsert (e : TValPairs) (k : String) (p : TVal) :
    mergeAttrStep e k p = e ∨ ∃ w, mergeAttrStep e k p = e.upsert k w := by
  unfold mergeAttrStep
  split_ifs with h1 h2 h3 h4 h5
  · exact Or.inl rfl
  · exact Or.inr (mergeObjectAttribute_is_upsert e k p)
  · exact Or.inr (mergeMapAttribute_is_upsert e k p)
  · exact Or.inr (mergeListAttribute_is_upsert e k p)
  · exact Or.inr (mergeSetAttribute_is_upsert e k p)
  · exact Or.inr ⟨_, rfl⟩

lemma lookupA_mergeAttrStep_ne (e : TValPairs) (k : String) (p : TVal) (key : String)
    (h : k ≠ key) :
    (mergeAttrStep e k p).lookupA key = e.lookupA key := by
  rcases mergeAttrStep_eq_or_upsert e k p with h1 | ⟨w, hw⟩
  · rw [h1]
  · rw [hw, lookupA_upsert_ne _ _ _ _ h]

lemma lookupA_mergePlanAndStateMap_not_mem (attrs : TValPairs) (e : TValPairs) (key : String)
    (h : key ∉ attrs.keys) :
    (mergePlanAndStateMap e attrs).lookupA key = e.lookupA key := by
  induction attrs using TValPairs.indVP generalizing e with
  | nil => rw [mergePlanAndStateMap_nil]
  | cons k pv rest ih =>
      simp only [TValPairs.keys, List.mem_cons, not_or] at h
      rw [mergePlanAndStateMap_cons, ih _ h.2,
        lookupA_mergeAttrStep_ne _ _ _ _ (fun hk => h.1 hk.symm)]

/-- C4: in the attribute-tree deep merge, an incoming attribute whose
value is null or unknown is skipped entirely: the merged result's value
at that attribute equals the existing value. -/
theorem merge_skips_null_or_unknown (existing attrsToMerge : TValPairs) (key : String)
    (v : TVal)
    (hnd : attrsToMerge.keys.Nodup)
    (hl : attrsToMerge.lookupA key = some v)
    (hnu : (v.isNull || v.isUnknown) = true) :
    (mergePlanAndStateMap existing attrsToMerge).lookupA key = existing.lookupA key := by
  induction attrsToMerge using TValPairs.indVP generalizing existing with
  | nil => simp [TValPairs.lookupA] at hl
  | cons k pv rest ih =>
      simp only [TValPairs.keys, List.nodup_cons] at hnd
      rw [mergePlanAndStateMap_cons]
      by_cases hk : k = key
      · subst hk
        simp only [TValPairs.lookupA, eq_self_iff_true, if_true, Option.some.injEq] at hl
        subst hl
        have hstep : mergeAttrStep existing k pv = existing := by
          unfold mergeAttrStep
          rw [if_pos hnu]
        rw [hstep]
        exact lookupA_mergePlanAndStateMap_not_mem rest existing k hnd.1
      · simp only [TValPairs.lookupA, if_neg hk] at hl
        rw [ih _ hnd.2 hl, lookupA_mergeAttrStep_ne _ _ _ _ hk]

/-- C4 witness: merging an incoming null over an existing known string
retains the existing value. -/
theorem merge_skips_null_or_unknown_witness :
    (TValPairs.cons "a" (TVal.vStr .null "") .nil).keys.Nodup ∧
    (mergePlanAndStateMap (.cons "a" (.vStr .known "x") .nil)
        (.cons "a" (.vStr .null "") .nil)).lookupA "a" =
      (TValPairs.cons "a" (TVal.vStr .known "x") .nil).lookupA "a" :=
  ⟨by simp [TValPairs.keys],
   merge_skips_null_or_unknown (.cons "a" (.vStr .known "x") .nil)
     (.cons "a" (.vStr .null "") .nil) "a" (.vStr .null "")
     (by simp [TValPairs.keys]) rfl rfl⟩

lemma mergeMapElemStep_eq_or_upsert (m : TValPairs) (k : String) (pv : TVal) :
    mergeMapElemStep m k pv = m ∨ ∃ w, mergeMapElemStep m k pv = m.upsert k w := by
  rw [mergeMapElemStep.eq_def]
  by_cases h : (pv.isNull || pv.isUnknown) = true
  · rw [if_pos h]; exact Or.inl rfl
  · simp only [Bool.not_eq_true] at h
    simp only [h, Bool.false_eq_true, if_false]
    cases hm : m.lookupA k with
    | none => simp only [hm]; exact Or.inr ⟨_, rfl⟩
    | some ev =>
        simp only [hm]
        cases pv
        all_goals try exact Or.inr ⟨_, rfl⟩
        cases ev <;> exact Or.inr ⟨_, rfl⟩

lemma lookupA_mergeMapElemStep_ne (m : TValPairs) (k : String) (pv : TVal) (key : String)
    (h : k ≠ key) :
    (mergeMapElemStep m k pv).lookupA key = m.lookupA key := by
  rcases mergeMapElemStep_eq_or_upsert m k pv with h1 | ⟨w, hw⟩
  · rw [h1]
  · rw [hw, lookupA_upsert_ne _ _ _ _ h]

lemma lookupA_mergeMapElements_not_mem (ps : TValPairs) (m : TValPairs) (key : String)
    (h : key ∉ ps.keys) :
    (mergeMapElements m ps).lookupA key = m.lookupA key := by
  induction ps using TValPairs.indVP generalizing m with
  | nil => rfl
  | cons k pv rest ih =>
      simp only [TValPairs.keys, List.mem_cons, not_or] at h
      rw [mergeMapElements_cons, ih _ h.2,
        lookupA_mergeMapElemStep_ne _ _ _ _ (fun hk => h.1 hk.symm)]

lemma mergeMapElements_adds (m ps : TValPairs) (key : String) (v : TVal)
    (hnd : ps.keys.Nodup) (hl : ps.lookupA key = some v)
    (hres : (v.isNull || v.isUnknown) = false) (hm : m.lookupA key = none) :
    (mergeMapElements m ps).lookupA key = some v := by
  induction ps using TValPairs.indVP generalizing m with
  | nil => simp [TValPairs.lookupA] at hl
  | cons k pv rest ih =>
      simp only [TValPairs.keys, List.nodup_cons] at hnd
      rw [mergeMapElements_cons]
      by_cases hk : k = key
      · subst hk
        simp only [TValPairs.lookupA, eq_self_iff_true, if_true, Option.some.injEq] at hl
        subst hl
        have hstep : mergeMapElemStep m k pv = m.upsert k pv := by
          rw [mergeMapElemStep.eq_def]
          simp only [hres, Bool.false_eq_true, if_false, hm]
        rw [hstep, lookupA_mergeMapElements_not_mem rest _ k hnd.1, lookupA_upsert_self]
      · simp only [TValPairs.lookupA, if_neg hk] at hl
        exact ih _ hnd.2 hl (by rw [lookupA_mergeMapElemStep_ne _ _ _ _ hk, hm])

lemma mergeMapElements_merges_objects (m ps : TValPairs) (key : String)
    (pAts : TTypePairs) (pAttrs : TValPairs) (eAts : TTypePairs) (eSt : VState)
    (eAttrs : TValPairs)
    (hnd : ps.keys.Nodup)
    (hp : ps.lookupA key = some (.vObj pAts .known pAttrs))
    (he : m.lookupA key = some (.vObj eAts eSt eAttrs)) :
    (mergeMapElements m ps).lookupA key =
      some (objectValue eAts
        (mergePlanAndStateMap (TVal.attributesO (.vObj eAts eSt eAttrs)) pAttrs)) := by
  induction ps using TValPairs.indVP generalizing m with
  | nil => simp [TValPairs.lookupA] at hp
  | cons k pv rest ih =>
      simp only [TValPairs.keys, List.nodup_cons] at hnd
      rw [mergeMapElements_cons]
      by_cases hk : k = key
      · subst hk
        simp only [TValPairs.lookupA, eq_self_iff_true, if_true, Option.some.injEq] at hp
        subst hp
        have hstep : mergeMapElemStep m k (.vObj pAts .known pAttrs) =
            m.upsert k (objectValue eAts
              (mergePlanAndStateMap (TVal.attributesO (.vObj eAts eSt eAttrs)) pAttrs)) := by
          rw [mergeMapElemStep.eq_def]
          simp only [TVal.isNull, TVal.isUnknown, TVal.state, Bool.or_self, Bool.false_eq_true,
            if_false, he]
        rw [hstep, lookupA_mergeMapElements_not_mem rest _ k hnd.1, lookupA_upsert_self]
      · simp only [TValPairs.lookupA, if_neg hk] at hp
        exact ih _ hnd.2 hp (by rw [lookupA_mergeMapElemStep_ne _ _ _ _ hk, he])

/-- The object element type used by the spec's map-merge scenario:
`Object{status: string}`. -/
def statusObjT : TType := .tObject (.cons "status" .tString .nil)

/-- A known `{status: <s>}` object value. -/
def statusObjV (s : String) : TVal :=
  .vObj (.cons "status" .tString .nil) .known (.cons "status" (.vStr .known s) .nil)

/-- C5: merging a Map-typed incoming attribute whose element type is not
Object replaces the existing map wholesale; with element type Object and
an existing map at the key, the merge is key-by-key: existing keys absent
from the incoming map are retained, incoming keys absent from the
existing map are added, and a key present in both as objects is replaced
by the recursive merge of the incoming object into the existing object;
and the spec's scenario — existing `{"k1": {status:"running"}}` merged
with incoming `{"k1": {status:"stopped"}, "k2": {status:"running"}}` —
yields `{"k1": {status:"stopped"}, "k2": {status:"running"}}`. -/
theorem mergeMap_characterization :
    (∀ (e : TValPairs) (key : String) (pElem : TType) (pSt : VState) (pEs : TValPairs),
      pElem.isObjectT = false →
      mergeMapAttribute e key (.vMap pElem pSt pEs) = e.upsert key (.vMap pElem pSt pEs)) ∧
    (∀ (e : TValPairs) (key : String) (ats : TTypePairs) (pEs : TValPairs)
        (eElem : TType) (eSt : VState) (eEs : TValPairs),
      e.lookupA key = some (.vMap eElem eSt eEs) →
      mergeMapAttribute e key (.vMap (.tObject ats) .known pEs) =
        e.upsert key (mapValue (.tObject ats)
          (mergeMapElements (TVal.elementsM (.vMap eElem eSt eEs)) pEs))) ∧
    (∀ (eEs pEs : TValPairs) (key : String),
      key ∉ pEs.keys → (mergeMapElements eEs pEs).lookupA key = eEs.lookupA key) ∧
    (∀ (eEs pEs : TValPairs) (key : String) (v : TVal),
      pEs.keys.Nodup → pEs.lookupA key = some v → (v.isNull || v.isUnknown) = false →
      eEs.lookupA key = none →
      (mergeMapElements eEs pEs).lookupA key = some v) ∧
    (∀ (eEs pEs : TValPairs) (key : String) (pAts : TTypePairs) (pAttrs : TValPairs)
        (eAts : TTypePairs) (eSt : VState) (eAttrs : TValPairs),
      pEs.keys.Nodup →
      pEs.lookupA key = some (.vObj pAts .known pAttrs) →
      eEs.lookupA key = some (.vObj eAts eSt eAttrs) →
      (mergeMapElements eEs pEs).lookupA key =
        some (objectValue eAts
          (mergePlanAndStateMap (TVal.attributesO (.vObj eAts eSt eAttrs)) pAttrs))) ∧
    mergeMapAttribute
        (.cons "m" (.vMap statusObjT .known (.cons "k1" (statusObjV "running") .nil)) .nil)
        "m"
        (.vMap statusObjT .known
          (.cons "k1" (statusObjV "stopped") (.cons "k2" (statusObjV "running") .nil))) =
      .cons "m"
        (.vMap statusObjT .known
          (.cons "k1" (statusObjV "stopped") (.cons "k2" (statusObjV "running") .nil)))
        .nil := by
  refine ⟨?_, ?_, ?_, ?_, ?_, ?_⟩
  · intro e key pElem pSt pEs ho
    rw [mergeMapAttribute.eq_def]
    cases hm : e.lookupA key with
    | none => simp only [hm]
    | some ev =>
        simp only [hm]
        cases ev <;> try rfl
        simp only [ho, Bool.not_false, if_true]
  · intro e key ats pEs eElem eSt eEs he
    rw [mergeMapAttribute.eq_def]
    simp only [he, TType.isObjectT, Bool.not_true, Bool.false_eq_true, if_false]
  · intro eEs pEs key h
    exact lookupA_mergeMapElements_not_mem pEs eEs key h
  · intro eEs pEs key v hnd hl hres hm
    exact mergeMapElements_adds eEs pEs key v hnd hl hres hm
  · intro eEs pEs key pAts pAttrs eAts eSt eAttrs hnd hp he
    exact mergeMapElements_merges_objects eEs pEs key pAts pAttrs eAts eSt eAttrs hnd hp he
  · rfl

/-- C5 witness: the key-by-key branch applied to the scenario's map, plus
the non-Object wholesale branch at a concrete string-element map. -/
theorem mergeMap_characterization_witness :
    mergeMapAttribute
        (.cons "m" (.vMap statusObjT .known (.cons "k1" (statusObjV "running") .nil)) .nil)
        "m"
        (.vMap (.tObject (.cons "status" .tString .nil)) .known
          (.cons "k1" (statusObjV "stopped") (.cons "k2" (statusObjV "running") .nil))) =
      (TValPairs.cons "m"
          (.vMap statusObjT .known (.cons "k1" (statusObjV "running") .nil)) .nil).upsert "m"
        (mapValue (.tObject (.cons "status" .tString .nil))
          (mergeMapElements
            (TVal.elementsM (.vMap statusObjT .known (.cons "k1" (statusObjV "running") .nil)))
            (.cons "k1" (statusObjV "stopped") (.cons "k2" (statusObjV "running") .nil)))) ∧
    mergeMapAttribute .nil "m" (.vMap .tString .known (.cons "x" (.vStr .known "y") .nil)) =
      TValPairs.upsert .nil "m" (.vMap .tString .known (.cons "x" (.vStr .known "y") .nil)) :=
  ⟨mergeMap_characterization.2.1
      (.cons "m" (.vMap statusObjT .known (.cons "k1" (statusObjV "running") .nil)) .nil)
      "m" (.cons "status" .tString .nil)
      (.cons "k1" (statusObjV "stopped") (.cons "k2" (statusObjV "running") .nil))
      statusObjT .known (.cons "k1" (statusObjV "running") .nil) rfl,
   mergeMap_characterization.1 .nil "m" .tString .known (.cons "x" (.vStr .known "y") .nil) rfl⟩

/-- C6 counterexample: for a set of strings (element type not Object),
`mergeSetAttribute` replaces the existing set with the incoming set
as-is — the incoming null element is NOT filtered out, so the result
differs from the filtered replacement the claim describes. -/
theorem mergeSet_no_filter_counterexample :
    mergeSetAttribute .nil "s"
        (.vSet .tString .known (.cons (.vStr .null "") (.cons (.vStr .known "a") .nil))) =
      .cons "s" (.vSet .tString .known (.cons (.vStr .null "") (.cons (.vStr .known "a") .nil)))
        .nil ∧
    TValPairs.cons "s"
        (.vSet .tString .known (.cons (.vStr .null "") (.cons (.vStr .known "a") .nil))) .nil ≠
      .cons "s"
        (setValue .tString
          (mergeSetAttribute.filterResolved
            (.cons (.vStr .null "") (.cons (.vStr .known "a") .nil)))) .nil := by
  constructor
  · rfl
  · intro h
    rw [show setValue .tString
          (mergeSetAttribute.filterResolved
            (.cons (.vStr .null "") (.cons (.vStr .known "a") .nil))) =
        .vSet .tString .known (.cons (.vStr .known "a") .nil) from rfl] at h
    injection h with h1 h2 h3
    injection h2 with h4 h5 h6
    injection h6 with h7 h8
    injection h7 with h9 h10
    exact VState.noConfusion h9

/-- C6 amended: set-typed attributes never merge element-wise; when the
set's element type is Object, incoming null/unknown elements are filtered
out and the remainder replaces the existing set wholesale; for any other
element type the incoming set replaces the existing set wholesale without
filtering. -/
theorem mergeSet_amended :
    (∀ (e : TValPairs) (key : String) (pElem : TType) (pSt : VState) (pEs : TValList),
      pElem.isObjectT = false →
      mergeSetAttribute e key (.vSet pElem pSt pEs) = e.upsert key (.vSet pElem pSt pEs)) ∧
    (∀ (e : TValPairs) (key : String) (ats : TTypePairs) (pEs : TValList),
      mergeSetAttribute e key (.vSet (.tObject ats) .known pEs) =
        e.upsert key (setValue (.tObject ats) (mergeSetAttribute.filterResolved pEs))) := by
  constructor
  · intro e key pElem pSt pEs ho
    simp only [mergeSetAttribute, ho, Bool.not_false, if_true]
  · intro e key ats pEs
    simp only [mergeSetAttribute, TType.isObjectT, Bool.not_true, Bool.false_eq_true, if_false,
      TVal.elementsL]

/-- C6 amended witness: the unfiltered wholesale replacement at a string
set containing a null element. -/
theorem mergeSet_amended_witness :
    mergeSetAttribute .nil "s"
        (.vSet .tString .known (.cons (.vStr .null "") .nil)) =
      TValPairs.upsert .nil "s" (.vSet .tString .known (.cons (.vStr .null "") .nil)) :=
  mergeSet_amended.1 .nil "s" .tString .known (.cons (.vStr .null "") .nil) rfl

lemma TValList.head?_eq_get?_zero (es : TValList) : es.head? = es.get? 0 := by
  cases es <;> rfl

lemma TValList.tail_get? (es : TValList) (n : Nat) : es.tail.get? n = es.get? (n + 1) := by
  cases es <;> rfl

lemma mergeListElems_nil (es : TValList) : mergeListElems .nil es = .nil := rfl

lemma mergeListElems_cons (p : TVal) (ps es : TValList) :
    mergeListElems (.cons p ps) es =
      .cons (mergeListElem p es.head?) (mergeListElems ps es.tail) := rfl

lemma mergeListElems_length (ps es : TValList) :
    (mergeListElems ps es).length = ps.length := by
  induction ps using TValList.indVL generalizing es with
  | nil => rfl
  | cons p rest ih => rw [mergeListElems_cons]; simp [TValList.length, ih]

lemma mergeListElems_get? (ps es : TValList) (i : Nat) :
    (mergeListElems ps es).get? i =
      (ps.get? i).map (fun p => mergeListElem p (es.get? i)) := by
  induction ps using TValList.indVL generalizing es i with
  | nil => simp [mergeListElems_nil, TValList.get?]
  | cons p rest ih =>
      rw [mergeListElems_cons]
      cases i with
      | zero => simp [TValList.get?, TValList.head?_eq_get?_zero]
      | succ n => simp [TValList.get?, ih, TValList.tail_get?]

lemma TValList.get?_eq_none_of_length_le (l : TValList) (n : Nat) (h : l.length ≤ n) :
    l.get? n = none := by
  induction l using TValList.indVL generalizing n with
  | nil => rfl
  | cons v rest ih =>
      cases n with
      | zero => simp [TValList.length] at h
      | succ n =>
          simp only [TValList.length] at h
          exact ih n (by omega)

lemma mergeListElem_null_or_unknown (p e : TVal) (h : (p.isNull || p.isUnknown) = true) :
    mergeListElem p (some e) = e := by
  rw [mergeListElem.eq_def, if_pos h]

/-- C10: merging a List-typed incoming attribute with Object element type
into an existing known list merges index-by-index via `mergeListElems`;
the merged element list has exactly the incoming list's length (so
existing elements beyond that length are dropped), and a null/unknown
incoming element at an index within the existing list's bounds preserves
the existing element at that index. -/
theorem mergeList_index_characterization :
    (∀ (e : TValPairs) (key : String) (ats : TTypePairs) (pEs : TValList)
        (eElem : TType) (eEs : TValList),
      e.lookupA key = some (.vList eElem .known eEs) →
      mergeListAttribute e key (.vList (.tObject ats) .known pEs) =
        e.upsert key (listValue (.tObject ats) (mergeListElems pEs eEs))) ∧
    (∀ pEs eEs : TValList, (mergeListElems pEs eEs).length = pEs.length) ∧
    (∀ (pEs eEs : TValList) (i : Nat), pEs.length ≤ i →
      (mergeListElems pEs eEs).get? i = none) ∧
    (∀ (pEs eEs : TValList) (i : Nat) (p ev : TVal),
      pEs.get? i = some p → (p.isNull || p.isUnknown) = true → eEs.get? i = some ev →
      (mergeListElems pEs eEs).get? i = some ev) := by
  refine ⟨?_, ?_, ?_, ?_⟩
  · intro e key ats pEs eElem eEs he
    rw [mergeListAttribute.eq_def]
    simp only [TType.isObjectT, Bool.not_true, Bool.false_eq_true, if_false, he, TVal.isNull,
      TVal.isUnknown, TVal.state, Bool.or_self, TVal.elementsL]
  · exact mergeListElems_length
  · intro pEs eEs i h
    exact TValList.get?_eq_none_of_length_le _ _ (by rw [mergeListElems_length]; exact h)
  · intro pEs eEs i p ev hp hnu hev
    rw [mergeListElems_get?, hp, Option.map_some', hev, mergeListElem_null_or_unknown p ev hnu]

/-- C10 witness: a two-element incoming list over a one-element existing
list — the null incoming element at index 0 keeps the existing object,
index 1 takes the incoming object, and the existing list's surplus is
bounded by the incoming length. -/
theorem mergeList_index_characterization_witness :
    mergeListAttribute
        (.cons "l" (.vList statusObjT .known (.cons (statusObjV "running") .nil)) .nil) "l"
        (.vList (.tObject (.cons "status" .tString .nil)) .known
          (.cons (.vObj (.cons "status" .tString .nil) .null .nil)
            (.cons (statusObjV "stopped") .nil))) =
      (TValPairs.cons "l" (.vList statusObjT .known (.cons (statusObjV "running") .nil)) .nil).upsert
        "l"
        (listValue (.tObject (.cons "status" .tString .nil))
          (mergeListElems
            (.cons (.vObj (.cons "status" .tString .nil) .null .nil)
              (.cons (statusObjV "stopped") .nil))
            (.cons (statusObjV "running") .nil))) ∧
    (mergeListElems
        (.cons (.vObj (.cons "status" .tString .nil) .null .nil)
          (.cons (statusObjV "stopped") .nil))
        (.cons (statusObjV "running") .nil)).get? 0 = some (statusObjV "running") :=
  ⟨mergeList_index_characterization.1
      (.cons "l" (.vList statusObjT .known (.cons (statusObjV "running") .nil)) .nil) "l"
      (.cons "status" .tString .nil)
      (.cons (.vObj (.cons "status" .tString .nil) .null .nil)
        (.cons (statusObjV "stopped") .nil))
      statusObjT (.cons (statusObjV "running") .nil) rfl,
   mergeList_index_characterization.2.2.2
      (.cons (.vObj (.cons "status" .tString .nil) .null .nil)
        (.cons (statusObjV "stopped") .nil))
      (.cons (statusObjV "running") .nil) 0
      (.vObj (.cons "status" .tString .nil) .null .nil) (statusObjV "running") rfl rfl rfl⟩

/-! ## Go reflect values (model for the reconciler and converters)

`GoVal` models a Go `reflect.Value` as seen by the `schemas` package:
scalars, pointers, slices, maps with string keys, interfaces, channels
and structs.  Nil-able reference kinds have an explicit nil constructor
(a nil pointer/slice/map/interface/channel carries no payload).  Struct
fields and map entries are name/key-value pair lists (`GoPairs`).  Float
payloads are not needed by any claim and are omitted. -/

mutual
inductive GoVal : Type where
  | vBool (b : Bool)
  | vStr (s : String)
  | vInt (n : Int)
  | vPtrNil
  | vPtr (pointee : GoVal)
  | vSliceNil
  | vSlice (elems : GoList)
  | vMapNil
  | vMapG (entries : GoPairs)
  | vIfaceNil
  | vIface (v : GoVal)
  | vChanNil
  | vChan
  | vStructG (fields : GoPairs)

inductive GoList : Type where
  | nil
  | cons (hd : GoVal) (tl : GoList)

inductive GoPairs : Type where
  | nil
  | cons (k : String) (v : GoVal) (tl : GoPairs)
end

/-- Single-motive structural induction for `GoPairs`. -/
lemma GoPairs.indGP {motive : GoPairs → Prop} (nil : motive .nil)
    (cons : ∀ k v rest, motive rest → motive (.cons k v rest)) : ∀ m, motive m
  | .nil => nil
  | .cons k v rest => cons k v rest (GoPairs.indGP nil cons rest)
  termination_by structural m => m

/-- Single-motive structural induction for `GoList`. -/
lemma GoList.indGL {motive : GoList → Prop} (nil : motive .nil)
    (cons : ∀ v rest, motive rest → motive (.cons v rest)) : ∀ l, motive l
  | .nil => nil
  | .cons v rest => cons v rest (GoList.indGL nil cons rest)
  termination_by structural l => l

mutual
/-- `reflect.Value.IsZero`: false booleans, empty strings, zero ints,
nil references, and structs all of whose fields are zero. -/
def GoVal.isZero : GoVal → Bool
  | .vBool b => !b
  | .vStr s => s == ""
  | .vInt n => n == 0
  | .vPtrNil => true
  | .vPtr _ => false
  | .vSliceNil => true
  | .vSlice _ => false
  | .vMapNil => true
  | .vMapG _ => false
  | .vIfaceNil => true
  | .vIface _ => false
  | .vChanNil => true
  | .vChan => false
  | .vStructG fields => GoPairs.allZero fields

def GoPairs.allZero : GoPairs → Bool
  | .nil => true
  | .cons _ v rest => v.isZero && GoPairs.allZero rest
end

mutual
/-- `reflect.DeepEqual` on two `interface{}` values: dynamic types and
payloads must agree structurally.  (The source only applies it with a
simple-scalar left operand, where this coincides exactly with
`reflect.DeepEqual`; for map operands Go ignores entry order, which this
structural model does not — no embedded code path compares maps.) -/
def GoVal.deepEqual : GoVal → GoVal → Bool
  | .vBool a, .vBool b => a == b
  | .vStr a, .vStr b => a == b
  | .vInt a, .vInt b => a == b
  | .vPtrNil, .vPtrNil => true
  | .vPtr a, .vPtr b => GoVal.deepEqual a b
  | .vSliceNil, .vSliceNil => true
  | .vSlice as, .vSlice bs => GoList.deepEqualL as bs
  | .vMapNil, .vMapNil => true
  | .vMapG as, .vMapG bs => GoPairs.deepEqualP as bs
  | .vIfaceNil, .vIfaceNil => true
  | .vIface a, .vIface b => GoVal.deepEqual a b
  | .vChanNil, .vChanNil => true
  | .vChan, .vChan => true
  | .vStructG as, .vStructG bs => GoPairs.deepEqualP as bs
  | _, _ => false

def GoList.deepEqualL : GoList → GoList → Bool
  | .nil, .nil => true
  | .cons a as, .cons b bs => GoVal.deepEqual a b && GoList.deepEqualL as bs
  | _, _ => false

def GoPairs.deepEqualP : GoPairs → GoPairs → Bool
  | .nil, .nil => true
  | .cons k a as, .cons l b bs => k == l && GoVal.deepEqual a b && GoPairs.deepEqualP as bs
  | _, _ => false
end

/-- Simple kinds (`simpleTypes` in the source): strings, booleans and
integer kinds. -/
def GoVal.isSimple : GoVal → Bool
  | .vBool _ => true
  | .vStr _ => true
  | .vInt _ => true
  | _ => false

/-- The target field's static type is a pointer type (the target then
holds a pointer value). -/
def GoVal.targetIsPtr : GoVal → Bool
  | .vPtrNil => true
  | .vPtr _ => true
  | _ => false

/-- `target.Set(planVal)` with the pointer wrapping the source performs
when the target's type is a pointer but the (dereferenced) plan value is
not (`planVal.Addr()` / `reflect.New` + `Set`). -/
def wrapForTarget (target p : GoVal) : GoVal :=
  if target.targetIsPtr then .vPtr p else p

/-- Lookup in a field/entry list. -/
def GoPairs.lookupG : GoPairs → String → Option GoVal
  | .nil, _ => none
  | .cons k v rest, name => if k = name then some v else GoPairs.lookupG rest name

/-- `v.FieldByName(name)` for struct values; invalid for non-structs. -/
def GoVal.fieldByName : GoVal → String → Option GoVal
  | .vStructG fields, name => GoPairs.lookupG fields name
  | _, _ => none

/-- `field.Set(v)` on an existing struct field: replace the named field's
value (never adds a field). -/
def GoPairs.setF : GoPairs → String → GoVal → GoPairs
  | .nil, _, _ => .nil
  | .cons k w rest, name, v =>
      if k = name then .cons k v rest else .cons k w (GoPairs.setF rest name v)

/-- `v.Elem()` through one pointer, for the state/target dereference in
the struct branch (`stateValNonPtr`, `targetNonPtr`); `none` models an
invalid value (nil pointer dereference). -/
def GoVal.elemOnce : GoVal → Option GoVal
  | .vPtrNil => none
  | .vPtr t => some t
  | t => some t

/-! ## Plan/state reconciler (part_006, `setTargetValueFromPlanAndState`)

The Go function mutates `target`; the model returns the target's final
value.  `stateVal : Option GoVal` models the possibly-invalid state
field (`stateVal.IsValid()`).  At every call site the caller has
pre-set `target` to the state field's value, so "target is kept" means
"the state value is retained". -/

mutual

def setTargetValueFromPlanAndState (planVal : GoVal) (stateVal : Option GoVal)
    (target : GoVal) : GoVal :=
  match planVal with
  | .vPtrNil => target
  | .vPtr inner => setTargetValueFromPlanAndState inner stateVal target
  | p =>
    match stateVal with
    | none => wrapForTarget target p
    | some s =>
      if p.isSimple then
        match p with
        | .vBool b => wrapForTarget target (.vBool b)
        | p' =>
            if !p'.isZero then
              if s.isZero || !(p'.deepEqual s) then wrapForTarget target p'
              else target
            else target
      else
        match p with
        | .vSlice es => wrapForTarget target (.vSlice es)
        | .vMapG ps => wrapForTarget target (.vMapG ps)
        | .vIface v => wrapForTarget target (.vIface v)
        | .vChan => wrapForTarget target .vChan
        | .vSliceNil => target
        | .vMapNil => target
        | .vIfaceNil => target
        | .vChanNil => target
        | .vStructG pfields =>
            if s.isZero then wrapForTarget target (.vStructG pfields)
            else
              (match target.elemOnce with
               | none => target
               | some tNonPtr =>
                   let merged := setStructFields pfields (s.elemOnce) tNonPtr
                   if target.targetIsPtr then .vPtr merged else merged)
        | _ => target
  termination_by structural planVal

/-- The field loop of the struct branch: for each plan field, recursively
reconcile into the target's field of the same name (when present),
looking the state field up by name in the (dereferenced) state value. -/
def setStructFields (planFields : GoPairs) (stateNonPtr : Option GoVal)
    (targetNonPtr : GoVal) : GoVal :=
  match planFields with
  | .nil => targetNonPtr
  | .cons name pv rest =>
      let target' :=
        match targetNonPtr with
        | .vStructG tfields =>
            (match GoPairs.lookupG tfields name with
             | some tv =>
                 GoVal.vStructG (GoPairs.setF tfields name
                   (setTargetValueFromPlanAndState pv
                     (match stateNonPtr with
                      | some sv => sv.fieldByName name
                      | none => none)
                     tv))
             | none => targetNonPtr)
        | _ => targetNonPtr
      setStructFields rest stateNonPtr target'
  termination_by structural planFields

end

/-- C2: the per-field reconciliation rules of
`setTargetValueFromPlanAndState` for a field whose state value exists
(`some s`) and is non-zero, on a non-pointer target field (the callers
pre-set the target to the state value, so keeping the target retains the
state value): a boolean plan value always wins; a non-boolean simple
scalar plan value wins exactly when it is non-zero and differs from the
state value, otherwise the target (state) is kept; a non-nil
slice/map/interface/channel plan value always wins; a nil one keeps the
target (state). -/
theorem reconcile_field_rules :
    (∀ (b : Bool) (s t : GoVal), t.targetIsPtr = false →
      setTargetValueFromPlanAndState (.vBool b) (some s) t = .vBool b) ∧
    (∀ (x : String) (s t : GoVal), s.isZero = false → t.targetIsPtr = false →
      setTargetValueFromPlanAndState (.vStr x) (some s) t =
        if (!(GoVal.vStr x).isZero && !((GoVal.vStr x).deepEqual s)) = true then .vStr x
        else t) ∧
    (∀ (n : Int) (s t : GoVal), s.isZero = false → t.targetIsPtr = false →
      setTargetValueFromPlanAndState (.vInt n) (some s) t =
        if (!(GoVal.vInt n).isZero && !((GoVal.vInt n).deepEqual s)) = true then .vInt n
        else t) ∧
    (∀ (es : GoList) (s t : GoVal), t.targetIsPtr = false →
      setTargetValueFromPlanAndState (.vSlice es) (some s) t = .vSlice es) ∧
    (∀ (ps : GoPairs) (s t : GoVal), t.targetIsPtr = false →
      setTargetValueFromPlanAndState (.vMapG ps) (some s) t = .vMapG ps) ∧
    (∀ (v s t : GoVal), t.targetIsPtr = false →
      setTargetValueFromPlanAndState (.vIface v) (some s) t = .vIface v) ∧
    (∀ (s t : GoVal), t.targetIsPtr = false →
      setTargetValueFromPlanAndState .vChan (some s) t = .vChan) ∧
    (∀ (s t : GoVal), setTargetValueFromPlanAndState .vSliceNil (some s) t = t) ∧
    (∀ (s t : GoVal), setTargetValueFromPlanAndState .vMapNil (some s) t = t) ∧
    (∀ (s t : GoVal), setTargetValueFromPlanAndState .vIfaceNil (some s) t = t) ∧
    (∀ (s t : GoVal), setTargetValueFromPlanAndState .vChanNil (some s) t = t) := by
  refine ⟨?_, ?_, ?_, ?_, ?_, ?_, ?_, ?_, ?_, ?_, ?_⟩
  · intro b s t ht
    rw [setTargetValueFromPlanAndState.eq_def]
    simp only [GoVal.isSimple, if_true, wrapForTarget, ht, Bool.false_eq_true, if_false]
  · intro x s t hs ht
    rw [setTargetValueFromPlanAndState.eq_def]
    cases hz : (GoVal.vStr x).isZero <;> cases hd : (GoVal.vStr x).deepEqual s <;>
      simp only [GoVal.isSimple, hz, hd, hs, ht, wrapForTarget, Bool.not_true, Bool.not_false,
        Bool.or_false, Bool.or_true, Bool.true_and, Bool.false_and, Bool.and_true, Bool.and_false,
        Bool.false_eq_true, Bool.true_eq_false, if_true, if_false, ite_self, if_pos, Bool.false_or,
        Bool.true_or]
  · intro n s t hs ht
    rw [setTargetValueFromPlanAndState.eq_def]
    cases hz : (GoVal.vInt n).isZero <;> cases hd : (GoVal.vInt n).deepEqual s <;>
      simp only [GoVal.isSimple, hz, hd, hs, ht, wrapForTarget, Bool.not_true, Bool.not_false,
        Bool.or_false, Bool.or_true, Bool.true_and, Bool.false_and, Bool.and_true, Bool.and_false,
        Bool.false_eq_true, Bool.true_eq_false, if_true, if_false, ite_self, if_pos, Bool.false_or,
        Bool.true_or]
  · intro es s t ht
    rw [setTargetValueFromPlanAndState.eq_def]
    simp only [GoVal.isSimple, Bool.false_eq_true, if_false, wrapForTarget, ht]
  · intro ps s t ht
    rw [setTargetValueFromPlanAndState.eq_def]
    simp only [GoVal.isSimple, Bool.false_eq_true, if_false, wrapForTarget, ht]
  · intro v s t ht
    rw [setTargetValueFromPlanAndState.eq_def]
    simp only [GoVal.isSimple, Bool.false_eq_true, if_false, wrapForTarget, ht]
  · intro s t ht
    rw [setTargetValueFromPlanAndState.eq_def]
    simp only [GoVal.isSimple, Bool.false_eq_true, if_false, wrapForTarget, ht]
  · intro s t
    rw [setTargetValueFromPlanAndState.eq_def]
    simp only [GoVal.isSimple, Bool.false_eq_true, if_false]
  · intro s t
    rw [setTargetValueFromPlanAndState.eq_def]
    simp only [GoVal.isSimple, Bool.false_eq_true, if_false]
  · intro s t
    rw [setTargetValueFromPlanAndState.eq_def]
    simp only [GoVal.isSimple, Bool.false_eq_true, if_false]
  · intro s t
    rw [setTargetValueFromPlanAndState.eq_def]
    simp only [GoVal.isSimple, Bool.false_eq_true, if_false]

/-- C2 witness: a false boolean plan value overwrites a true state value;
a zero string plan keeps the state; a non-zero differing string plan
wins; a plan equal to the state keeps the target; a nil plan slice keeps
the state while a non-nil one wins. -/
theorem reconcile_field_rules_witness :
    setTargetValueFromPlanAndState (.vBool false) (some (.vBool true)) (.vBool true) =
      .vBool false ∧
    setTargetValueFromPlanAndState (.vStr "") (some (.vStr "y")) (.vStr "y") = .vStr "y" ∧
    setTargetValueFromPlanAndState (.vStr "x") (some (.vStr "y")) (.vStr "y") = .vStr "x" ∧
    setTargetValueFromPlanAndState (.vStr "x") (some (.vStr "x")) (.vStr "x") = .vStr "x" ∧
    setTargetValueFromPlanAndState .vSliceNil (some (.vSlice (.cons (.vStr "a") .nil)))
        (.vSlice (.cons (.vStr "a") .nil)) = .vSlice (.cons (.vStr "a") .nil) ∧
    setTargetValueFromPlanAndState (.vSlice .nil)
        (some (.vSlice (.cons (.vStr "a") .nil))) (.vSlice (.cons (.vStr "a") .nil)) =
      .vSlice .nil := by
  refine ⟨?_, ?_, ?_, ?_, ?_, ?_⟩
  · exact reconcile_field_rules.1 false (.vBool true) (.vBool true) rfl
  · rw [reconcile_field_rules.2.1 "" (.vStr "y") (.vStr "y") rfl rfl]; rfl
  · rw [reconcile_field_rules.2.1 "x" (.vStr "y") (.vStr "y") rfl rfl]; rfl
  · rw [reconcile_field_rules.2.1 "x" (.vStr "x") (.vStr "x") rfl rfl]; rfl
  · exact reconcile_field_rules.2.2.2.2.2.2.2.1 (.vSlice (.cons (.vStr "a") .nil))
      (.vSlice (.cons (.vStr "a") .nil))
  · exact reconcile_field_rules.2.2.2.1 .nil (.vSlice (.cons (.vStr "a") .nil))
      (.vSlice (.cons (.vStr "a") .nil)) rfl

/-! ## Go struct types (model for field resolution and schema derivation)

`FieldMeta` carries a `reflect.StructField`'s name, the struct tags the
source reads, the `PkgPath` (non-empty for unexported fields) and the
`Anonymous` flag.  `GoType` models the Go types the `schemas` package
handles. -/

structure FieldMeta where
  name : String
  tMapstructure : String
  tFlag : String
  tJson : String
  tDesc : String
  tRequired : String
  tValidate : String
  tChoices : String
  tDefault : String
  tForceNew : String
  pkgPath : String
  anonymous : Bool

mutual
inductive GoType : Type where
  | gString
  | gBool
  | gInt
  | gFloat
  | gPtrT (t : GoType)
  | gSliceT (t : GoType)
  | gArrayT (t : GoType)
  | gMapT (key : GoType) (val : GoType)
  | gStructT (fields : GoStructFields)
  | gIfaceT
  | gChanT

inductive GoStructFields : Type where
  | nil
  | cons (meta : FieldMeta) (t : GoType) (tl : GoStructFields)
end

def GoType.isPtrT : GoType → Bool
  | .gPtrT _ => true
  | _ => false

/-- `for fieldType.Kind() == reflect.Pointer { fieldType = fieldType.Elem() }`. -/
def GoType.stripPtrs : GoType → GoType
  | .gPtrT t => t.stripPtrs
  | t => t

/-- The prefix of a character list before the first comma. -/
def takeUntilComma : List Char → List Char
  | [] => []
  | c :: rest => if c = ',' then [] else c :: takeUntilComma rest

/-- `strings.Split(s, ",")[0]`: the prefix of `s` before the first comma. -/
def splitHeadComma (s : String) : String := String.mk (takeUntilComma s.data)

/-- The field loop of `findFieldByName`: search the struct's fields for
one whose mapstructure (falling back to json, falling back to the Go
field name) tag head equals `name`.  A `,squash` field causes an
immediate recursive search of the embedded type, ignoring any remaining
fields (as the source's early `return` does); the source recurses
through `findFieldByName(reflect.New(field.Type).Interface(), name)`,
whose nil/empty-name guards and single pointer dereference are inlined
here. -/
def findFieldLoop (fields : GoStructFields) (name : String) : Option (FieldMeta × GoType) :=
  match fields with
  | .nil => none
  | .cons meta t rest =>
      if meta.pkgPath ≠ "" && !meta.anonymous then findFieldLoop rest name
      else
        let flagName :=
          if meta.tMapstructure ≠ "" then meta.tMapstructure
          else if meta.tJson ≠ "" then meta.tJson
          else meta.name
        if splitHeadComma flagName = name then some (meta, t)
        else if meta.tMapstructure = ",squash" then
          (if name = "" then none
           else
             match t with
             | .gStructT nestedFields => findFieldLoop nestedFields name
             | _ => none)
        else findFieldLoop rest name
  termination_by structural fields

/-- `findFieldByName(schema, name)` after `reflect.TypeOf`: one pointer
dereference, then the struct field search; `none` models a nil schema. -/
def findFieldByNameT (ty : GoType) (name : String) : Option (FieldMeta × GoType) :=
  if name = "" then none
  else
    match ty with
    | .gPtrT t =>
        (match t with
         | .gStructT fields => findFieldLoop fields name
         | _ => none)
    | .gStructT fields => findFieldLoop fields name
    | _ => none

/-- `findFieldByName(schema, name)`: `none` models a nil prototype. -/
def findFieldByName (schema : Option GoType) (name : String) : Option (FieldMeta × GoType) :=
  match schema with
  | none => none
  | some ty => findFieldByNameT ty name

/-- `goValReflect.Kind() == reflect.Bool`. -/
def GoVal.isBoolKind : GoVal → Bool
  | .vBool _ => true
  | _ => false

/-- The non-pointer-field store decision of `objectToMap`: dereference a
non-nil pointer, drop a nil pointer, and otherwise store the value only
when it is a boolean or non-zero. -/
def nonPtrEntry (g : GoVal) : Option GoVal :=
  match g with
  | .vPtr p => some p
  | .vPtrNil => none
  | g' => if g'.isBoolKind || !g'.isZero then some g' else none

/-- One iteration of the `objectToMap` loop for attribute `key`, given
the attribute's null/unknown state and the result `conv` of
`attrToInterface`: a null attribute stores a nil entry, an unknown one is
skipped, a conversion error aborts, a nil conversion is skipped, and
otherwise the value is wrapped in a pointer for pointer-typed fields or
stored via the zero-dropping rule for other fields. -/
def objectToMapEntryOf (proto : Option GoType) (key : String) (isNull isUnknown : Bool)
    (conv : Except String (Option GoVal)) : Except String (Option GoVal) :=
  if isNull then .ok (some .vIfaceNil)
  else if isUnknown then .ok none
  else
    match conv with
    | .error e => .error ("error converting attribute " ++ key ++ ": " ++ e)
    | .ok none => .ok none
    | .ok (some goVal) =>
        match findFieldByName proto key with
        | some (_, t) =>
            if t.isPtrT then
              .ok (some (match goVal with
                         | .vPtr p => .vPtr p
                         | .vPtrNil => .vPtrNil
                         | g => .vPtr g))
            else .ok (nonPtrEntry goVal)
        | none => .ok (nonPtrEntry goVal)

/-- The element prototype computation of the `List`/`Set`/`Tuple` case of
`attrToInterface`: strip pointers off the field type; for slice/array
types, a `reflect.New` of the (pointer-stripped) element type. -/
def sliceElemProto (proto : Option GoType) (key : String) : Option GoType :=
  match findFieldByName proto key with
  | some (_, t) =>
      (match t.stripPtrs with
       | .gSliceT et => some (.gPtrT (match et with | .gPtrT base => base | b => b))
       | .gArrayT et => some (.gPtrT (match et with | .gPtrT base => base | b => b))
       | _ => none)
  | none => none

/-! ## Value converter — decode (part_006, `objectToMap` / `attrToInterface`)

`attrToInterface` turns a framework value into a Go `interface{}` value
(`none` models a nil interface), using the prototype's field types to
shape nested conversions.  Two conversions are outside this model and
are mapped to conversion errors: known float payloads (no claim touches
them) and the JSON decoding of `Dynamic` values. -/

mutual

def attrToInterface (key : String) (val : TVal) (proto : Option GoType) :
    Except String (Option GoVal) :=
  if val.isNull || val.isUnknown then .ok none
  else
    match val with
    | .vStr _ s => .ok (some (.vStr s))
    | .vInt _ n => .ok (some (.vInt n))
    | .vBool _ b => .ok (some (.vBool b))
    | .vFloat _ => .error "float payloads outside model"
    | .vNum _ => .error "unsupported attribute type"
    | .vObj _ st attrs =>
        let nestedProto :=
          match findFieldByName proto key with
          | some (_, t) => some (GoType.gPtrT t)
          | none => proto
        (match st with
         | .known => (objectToMapLoop attrs nestedProto).map (fun r => some (.vMapG r))
         | _ => .error "object is null or unknown")
    | .vDyn _ _ => .error "dynamic JSON decoding outside model"
    | .vMap _ st es =>
        let elemProto :=
          match findFieldByName proto key with
          | some (_, .gMapT _ v) => some (GoType.gPtrT v)
          | _ => none
        (match st with
         | .known => (attrMapLoop es elemProto).map (fun m => some (.vMapG m))
         | _ => .ok (some (.vMapG .nil)))
    | .vList _ st es =>
        (match st with
         | .known => (attrListLoop es (sliceElemProto proto key)).map (fun l => some (.vSlice l))
         | _ => .ok (some (.vSlice .nil)))
    | .vSet _ st es =>
        (match st with
         | .known => (attrListLoop es (sliceElemProto proto key)).map (fun l => some (.vSlice l))
         | _ => .ok (some (.vSlice .nil)))
    | .vTuple _ st es =>
        (match st with
         | .known => (attrListLoop es (sliceElemProto proto key)).map (fun l => some (.vSlice l))
         | _ => .ok (some (.vSlice .nil)))
  termination_by structural val

/-- The attribute loop of `objectToMap` over a known object's attributes. -/
def objectToMapLoop (attrs : TValPairs) (proto : Option GoType) : Except String GoPairs :=
  match attrs with
  | .nil => .ok .nil
  | .cons key val rest =>
      match objectToMapEntryOf proto key val.isNull val.isUnknown
          (attrToInterface key val proto) with
      | .error e => .error e
      | .ok none => objectToMapLoop rest proto
      | .ok (some g) => (objectToMapLoop rest proto).map (fun r => .cons key g r)
  termination_by structural attrs

/-- The element loop of the `List`/`Set`/`Tuple` case (element key `""`);
a nil converted element is stored as a nil interface value. -/
def attrListLoop (es : TValList) (elemProto : Option GoType) : Except String GoList :=
  match es with
  | .nil => .ok .nil
  | .cons e rest =>
      match attrToInterface "" e elemProto with
      | .error err => .error err
      | .ok conv =>
          (attrListLoop rest elemProto).map
            (fun l => .cons (match conv with | some g => g | none => .vIfaceNil) l)
  termination_by structural es

/-- The entry loop of the `Map` case. -/
def attrMapLoop (es : TValPairs) (elemProto : Option GoType) : Except String GoPairs :=
  match es with
  | .nil => .ok .nil
  | .cons k e rest =>
      match attrToInterface k e elemProto with
      | .error err => .error err
      | .ok conv =>
          (attrMapLoop rest elemProto).map
            (fun m => .cons k (match conv with | some g => g | none => .vIfaceNil) m)
  termination_by structural es

end

/-- `objectToMap(obj, prototype)`: fails on a null/unknown root, else
converts each attribute via the entry rule.  (A non-object input cannot
occur — the Go parameter is statically `types.Object`.) -/
def objectToMap (obj : TVal) (proto : Option GoType) : Except String GoPairs :=
  match obj with
  | .vObj _ .known attrs => objectToMapLoop attrs proto
  | _ => .error "object is null or unknown"

lemma lookupG_cons_ne (k key : String) (g : GoVal) (r : GoPairs) (h : k ≠ key) :
    GoPairs.lookupG (.cons k g r) key = GoPairs.lookupG r key := by
  simp [GoPairs.lookupG, h]

lemma objectToMapLoop_not_mem (attrs : TValPairs) (proto : Option GoType) (r : GoPairs)
    (key : String) (h : key ∉ attrs.keys) (hr : objectToMapLoop attrs proto = .ok r) :
    GoPairs.lookupG r key = none := by
  induction attrs using TValPairs.indVP generalizing r with
  | nil =>
      rw [show objectToMapLoop .nil proto = .ok .nil from rfl] at hr
      injection hr with hr'
      subst hr'
      rfl
  | cons k v rest ih =>
      simp only [TValPairs.keys, List.mem_cons, not_or] at h
      rw [objectToMapLoop.eq_def] at hr
      cases he : objectToMapEntryOf proto k v.isNull v.isUnknown (attrToInterface k v proto) with
      | error e => simp only [he] at hr; exact Except.noConfusion hr
      | ok conv =>
          cases conv with
          | none =>
              simp only [he] at hr
              exact ih r h.2 hr
          | some g =>
              simp only [he] at hr
              cases hrest : objectToMapLoop rest proto with
              | error e =>
                  simp only [hrest, Except.map] at hr
                  exact Except.noConfusion hr
              | ok r' =>
                  simp only [hrest, Except.map, Except.ok.injEq] at hr
                  subst hr
                  rw [lookupG_cons_ne k key g r' (fun hk => h.1 hk.symm)]
                  exact ih r' h.2 hrest

lemma objectToMapLoop_lookup (attrs : TValPairs) (proto : Option GoType) (key : String)
    (val : TVal) (r : GoPairs)
    (hnd : attrs.keys.Nodup) (hl : attrs.lookupA key = some val)
    (hr : objectToMapLoop attrs proto = .ok r) :
    objectToMapEntryOf proto key val.isNull val.isUnknown (attrToInterface key val proto) =
      .ok (GoPairs.lookupG r key) := by
  induction attrs using TValPairs.indVP generalizing r with
  | nil => simp [TValPairs.lookupA] at hl
  | cons k v rest ih =>
      simp only [TValPairs.keys, List.nodup_cons] at hnd
      rw [objectToMapLoop.eq_def] at hr
      by_cases hk : k = key
      · subst hk
        simp only [TValPairs.lookupA, eq_self_iff_true, if_true, Option.some.injEq] at hl
        subst hl
        cases he : objectToMapEntryOf proto k v.isNull v.isUnknown
            (attrToInterface k v proto) with
        | error e => simp only [he] at hr; exact Except.noConfusion hr
        | ok conv =>
            cases conv with
            | none =>
                simp only [he] at hr
                rw [objectToMapLoop_not_mem rest proto r k hnd.1 hr]
            | some g =>
                simp only [he] at hr
                cases hrest : objectToMapLoop rest proto with
                | error e =>
                    simp only [hrest, Except.map] at hr
                    exact Except.noConfusion hr
                | ok r' =>
                    simp only [hrest, Except.map, Except.ok.injEq] at hr
                    subst hr
                    simp [GoPairs.lookupG]
      · simp only [TValPairs.lookupA, if_neg hk] at hl
        cases he : objectToMapEntryOf proto k v.isNull v.isUnknown
            (attrToInterface k v proto) with
        | error e => simp only [he] at hr; exact Except.noConfusion hr
        | ok conv =>
            cases conv with
            | none =>
                simp only [he] at hr
                exact ih r hnd.2 hl hr
            | some g =>
                simp only [he] at hr
                cases hrest : objectToMapLoop rest proto with
                | error e =>
                    simp only [hrest, Except.map] at hr
                    exact Except.noConfusion hr
                | ok r' =>
                    simp only [hrest, Except.map, Except.ok.injEq] at hr
                    subst hr
                    rw [lookupG_cons_ne k key g r' hk]
                    exact ih r' hnd.2 hl hrest

/-- C3: in `objectToMap`, an attribute whose target record field is
non-pointer loses a decoded scalar equal to the zero value — a known
empty string or a known zero int is omitted from the intermediate
mapping — while a decoded boolean is carried even when false. -/
theorem decode_drops_zero_scalars (oAts : TTypePairs) (attrs : TValPairs)
    (proto : Option GoType) (key : String) (meta : FieldMeta) (t : GoType) (r : GoPairs)
    (hnd : attrs.keys.Nodup)
    (hf : findFieldByName proto key = some (meta, t))
    (hp : t.isPtrT = false)
    (hr : objectToMap (.vObj oAts .known attrs) proto = .ok r) :
    (attrs.lookupA key = some (.vStr .known "") → GoPairs.lookupG r key = none) ∧
    (attrs.lookupA key = some (.vInt .known 0) → GoPairs.lookupG r key = none) ∧
    (∀ b : Bool, attrs.lookupA key = some (.vBool .known b) →
      GoPairs.lookupG r key = some (.vBool b)) := by
  have hr' : objectToMapLoop attrs proto = .ok r := hr
  refine ⟨?_, ?_, ?_⟩
  · intro hl
    have h := objectToMapLoop_lookup attrs proto key (.vStr .known "") r hnd hl hr'
    rw [show attrToInterface key (.vStr .known "") proto = .ok (some (.vStr "")) from rfl] at h
    simp only [objectToMapEntryOf, TVal.isNull, TVal.isUnknown, TVal.state, Bool.false_eq_true,
      if_false, hf, hp, nonPtrEntry, GoVal.isBoolKind, GoVal.isZero, Except.ok.injEq] at h
    simp only [show (("" : String) == "") = true from rfl, Bool.not_true, Bool.or_self,
      Bool.false_eq_true, if_false] at h
    exact h.symm
  · intro hl
    have h := objectToMapLoop_lookup attrs proto key (.vInt .known 0) r hnd hl hr'
    rw [show attrToInterface key (.vInt .known 0) proto = .ok (some (.vInt 0)) from rfl] at h
    simp only [objectToMapEntryOf, TVal.isNull, TVal.isUnknown, TVal.state, Bool.false_eq_true,
      if_false, hf, hp, nonPtrEntry, GoVal.isBoolKind, GoVal.isZero, Except.ok.injEq] at h
    simp only [show ((0 : Int) == 0) = true from rfl, Bool.not_true, Bool.or_self,
      Bool.false_eq_true, if_false] at h
    exact h.symm
  · intro b hl
    have h := objectToMapLoop_lookup attrs proto key (.vBool .known b) r hnd hl hr'
    rw [show attrToInterface key (.vBool .known b) proto = .ok (some (.vBool b)) from rfl] at h
    simp only [objectToMapEntryOf, TVal.isNull, TVal.isUnknown, TVal.state, Bool.false_eq_true,
      if_false, hf, hp, nonPtrEntry, GoVal.isBoolKind, Bool.true_or, if_true,
      Except.ok.injEq] at h
    exact h.symm

/-- C3 witness: decoding `{name: "db1", count: 0}` against a prototype
whose non-pointer int field has wire name `count` drops the zero count
from the intermediate mapping. -/
theorem decode_drops_zero_scalars_witness :
    objectToMap
        (.vObj .nil .known
          (.cons "name" (.vStr .known "db1") (.cons "count" (.vInt .known 0) .nil)))
        (some (.gStructT
          (.cons ⟨"Name", "name", "", "", "", "", "", "", "", "", "", false⟩ .gString
            (.cons ⟨"Count", "count", "", "", "", "", "", "", "", "", "", false⟩ .gInt .nil)))) =
      .ok (.cons "name" (.vStr "db1") .nil) ∧
    GoPairs.lookupG (.cons "name" (.vStr "db1") .nil) "count" = none :=
  ⟨rfl,
   (decode_drops_zero_scalars .nil
      (.cons "name" (.vStr .known "db1") (.cons "count" (.vInt .known 0) .nil))
      (some (.gStructT
        (.cons ⟨"Name", "name", "", "", "", "", "", "", "", "", "", false⟩ .gString
          (.cons ⟨"Count", "count", "", "", "", "", "", "", "", "", "", false⟩ .gInt .nil))))
      "count" ⟨"Count", "count", "", "", "", "", "", "", "", "", "", false⟩ .gInt
      (.cons "name" (.vStr "db1") .nil)
      (by simp [TValPairs.keys]) rfl rfl rfl).2.1 rfl⟩

/-! ## Field resolution and wire names (part_006,
`resolveFieldsSquashed` / `resolveFieldName`) -/

def isUpperAscii (c : Char) : Bool := 'A' ≤ c && c ≤ 'Z'

def isLowerAscii (c : Char) : Bool := 'a' ≤ c && c ≤ 'z'

def isDigitAscii (c : Char) : Bool := '0' ≤ c && c ≤ '9'

def lowerAscii (c : Char) : Char :=
  if isUpperAscii c then Char.ofNat (c.toNat + 32) else c

/-- Lower-snake conversion over characters, carrying the previous
character: an underscore is inserted before an uppercase letter that
follows a lowercase letter or digit, and before an uppercase letter that
ends an acronym run (uppercase followed by lowercase); delimiters are
normalized to underscores and letters lowercased. -/
def toSnakeGo (prev : Option Char) : List Char → List Char
  | [] => []
  | c :: rest =>
      let boundary :=
        match prev with
        | none => false
        | some p =>
            (isUpperAscii c && (isLowerAscii p || isDigitAscii p)) ||
            (isUpperAscii c && isUpperAscii p &&
              (match rest with
               | n :: _ => isLowerAscii n
               | [] => false))
      let c' := if c = '-' || c = ' ' || c = '.' then '_' else lowerAscii c
      if boundary then '_' :: c' :: toSnakeGo (some c) rest
      else c' :: toSnakeGo (some c) rest

/-- Models the third-party `strcase.ToSnake` dependency (canonical
lower-snake wire form) for ASCII identifiers. -/
def toSnake (s : String) : String := String.mk (toSnakeGo none s.data)

/-- `resolveFieldName`: mapstructure tag name, else flag tag name, else
json tag name, else the Go field identifier, converted to snake case. -/
def resolveFieldName (meta : FieldMeta) : String :=
  let m := splitHeadComma meta.tMapstructure
  if m ≠ "" then toSnake m
  else
    let f := splitHeadComma meta.tFlag
    if f ≠ "" then toSnake f
    else
      let j := splitHeadComma meta.tJson
      if j ≠ "" then toSnake j
      else toSnake meta.name

mutual
/-- `resolveFieldsSquashed`: one pointer dereference, then the flattened
field list — `,squash` fields contribute their own (recursively
flattened) fields, fields tagged `-` and unexported fields are skipped.
(`NumField` on a non-struct panics in Go; the model yields no fields.) -/
def resolveFieldsSquashed (schema : GoType) : List (FieldMeta × GoType) :=
  match schema with
  | .gPtrT t =>
      (match t with
       | .gStructT fields => resolveFieldsLoop fields
       | _ => [])
  | .gStructT fields => resolveFieldsLoop fields
  | _ => []
  termination_by structural schema

def resolveFieldsLoop (fields : GoStructFields) : List (FieldMeta × GoType) :=
  match fields with
  | .nil => []
  | .cons meta t rest =>
      if meta.tMapstructure = ",squash" then
        resolveFieldsSquashed t ++ resolveFieldsLoop rest
      else if meta.tMapstructure = "-" then resolveFieldsLoop rest
      else if meta.pkgPath ≠ "" then resolveFieldsLoop rest
      else (meta, t) :: resolveFieldsLoop rest
  termination_by structural fields
end

/-- One pointer dereference of an optional value; a nil pointer yields an
invalid value. -/
def derefOnceOpt : Option GoVal → Option GoVal
  | some (.vPtr p) => some p
  | some .vPtrNil => none
  | v => v

mutual
/-- Models the parallel iteration of `resolveFieldsSquashed` over the
record type and `resolveFieldsValueSquashed` over the record value (the
source indexes the two result slices in lockstep): each flattened field
is paired with its value, squashed fields recursing into the embedded
value (`none` models an invalid/unextractable field value). -/
def resolveFieldsWithValues (schema : GoType) (v : Option GoVal) :
    List (FieldMeta × GoType × Option GoVal) :=
  match schema with
  | .gPtrT t =>
      (match t with
       | .gStructT fields => rfwvLoop fields (derefOnceOpt v)
       | _ => [])
  | .gStructT fields => rfwvLoop fields (derefOnceOpt v)
  | _ => []
  termination_by structural schema

def rfwvLoop (fields : GoStructFields) (v : Option GoVal) :
    List (FieldMeta × GoType × Option GoVal) :=
  match fields with
  | .nil => []
  | .cons meta t rest =>
      if meta.tMapstructure = ",squash" then
        resolveFieldsWithValues t
            (match v with
             | some sv => sv.fieldByName meta.name
             | none => none) ++
          rfwvLoop rest v
      else if meta.tMapstructure = "-" then rfwvLoop rest v
      else if meta.pkgPath ≠ "" then rfwvLoop rest v
      else
        (meta, t,
          match v with
          | some sv => sv.fieldByName meta.name
          | none => none) :: rfwvLoop rest v
  termination_by structural fields
end

/-! ## Value converter — encode (part_006, `interfaceTypeToAttr` /
`StructToStateObject`) -/

/-- `valReflect.String()`: the string payload, or reflect's placeholder
text for values of other kinds. -/
def goStringOf : GoVal → String
  | .vStr s => s
  | _ => "<non-string Value>"

/-- Declared object attribute keys converted to snake case
(`attrs[strcase.ToSnake(key)] = attrType`). -/
def ttypePairsSnake : TTypePairs → TTypePairs
  | .nil => .nil
  | .cons k t rest => .cons (toSnake k) t (ttypePairsSnake rest)

def TTypeList.lengthT : TTypeList → Nat
  | .nil => 0
  | .cons _ tl => tl.lengthT + 1

/-- `types.TupleValue` validation: one element per declared type, each
matching. -/
def tupleValid : TTypeList → TValList → Bool
  | .nil, .nil => true
  | .cons t ts, .cons e es => TType.beq e.typeOf t && tupleValid ts es
  | _, _ => false

/-- `types.TupleValue(elemTypes, elems)`. -/
def tupleValue (ts : TTypeList) (es : TValList) : TVal :=
  if tupleValid ts es then .vTuple ts .known es else .vTuple ts .unknown .nil

/-- The Go element type of a slice/array type (the runtime value's
element type in the List/Set case). -/
def sliceElemGoT : GoType → GoType
  | .gSliceT et => et
  | .gArrayT et => et
  | g => g

/-- The Go value type of a map type. -/
def mapValGoT : GoType → GoType
  | .gMapT _ v => v
  | g => g

mutual

/-- `interfaceTypeToAttr(ctx, val, t)`: convert a Go value (with its
runtime type `gt` — a Go `interface{}` carries both) into a framework
value of attribute type `t`.  A nil pointer yields the type-appropriate
null; a non-nil pointer is dereferenced.  Known float payloads hit the
source's default branch (`Float64Type`/`NumberType` have no case) and
JSON encoding of `Dynamic` values is outside the model, both mapped to
errors; `reflect` panics on kind-mismatched `Bool()`/`Len()`/`MapKeys()`
calls are modeled as errors.  (The source dereferences exactly one
pointer level and record fields are at most singly-pointered; the model
dereferences nested pointers recursively.) -/
def interfaceTypeToAttr (gt : GoType) (gv : GoVal) (t : TType) : Except String TVal :=
  match gv with
  | .vPtrNil => .ok (getNullValue t)
  | .vPtr p =>
      interfaceTypeToAttr
        (match gt with
         | .gPtrT i => i
         | g => g) p t
  | g =>
      match t with
      | .tString => .ok (.vStr .known (goStringOf g))
      | .tInt64 =>
          (match g with
           | .vInt n => .ok (.vInt .known n)
           | _ => .error "unsupported kind for Int64Type")
      | .tBool =>
          (match g with
           | .vBool b => .ok (.vBool .known b)
           | _ => .error "Bool called on non-bool value")
      | .tObject ats =>
          (match
            (match gt with
             | .gPtrT i => i
             | gg => gg), g with
           | .gStructT tfs, .vStructG vfs =>
               (match ittaFields tfs vfs (ttypePairsSnake ats) .nil with
                | .error e => .error e
                | .ok values =>
                    if attrsMatch (ttypePairsSnake ats) values &&
                        attrsDeclared values (ttypePairsSnake ats) then
                      .ok (.vObj (ttypePairsSnake ats) .known values)
                    else .error "failed to convert object")
           | _, _ =>
               (if attrsMatch (ttypePairsSnake ats) .nil &&
                   attrsDeclared TValPairs.nil (ttypePairsSnake ats) then
                  .ok (.vObj (ttypePairsSnake ats) .known .nil)
                else .error "failed to convert object"))
      | .tList e =>
          (match g with
           | .vSlice es =>
               (match ittaElems (sliceElemGoT gt) es e with
                | .error err => .error err
                | .ok elems =>
                    if elems.allType e then .ok (.vList e .known elems)
                    else .error "failed to convert list")
           | .vSliceNil =>
               if TValList.allType .nil e then .ok (.vList e .known .nil)
               else .error "failed to convert list"
           | _ => .error "Len called on non-slice value")
      | .tSet e =>
          (match g with
           | .vSlice es =>
               (match ittaElems (sliceElemGoT gt) es e with
                | .error err => .error err
                | .ok elems =>
                    if elems.allType e then .ok (.vSet e .known elems)
                    else .error "failed to convert set")
           | .vSliceNil =>
               if TValList.allType .nil e then .ok (.vSet e .known .nil)
               else .error "failed to convert set"
           | _ => .error "Len called on non-slice value")
      | .tTuple ts =>
          (match g with
           | .vSlice es =>
               (match ittaTupleElems ts es with
                | .error err => .error err
                | .ok elems =>
                    if tupleValid ts elems then .ok (.vTuple ts .known elems)
                    else .error "failed to convert tuple")
           | .vSliceNil =>
               if tupleValid ts .nil then .ok (.vTuple ts .known .nil)
               else .error "failed to convert tuple"
           | _ => .error "Len called on non-slice value")
      | .tMap e =>
          (match g with
           | .vMapG entries =>
               (match ittaMapEntries (mapValGoT gt) entries e with
                | .error err => .error err
                | .ok ms =>
                    if ms.allType e then .ok (.vMap e .known ms)
                    else .error "failed to convert map")
           | .vMapNil =>
               if TValPairs.allType .nil e then .ok (.vMap e .known .nil)
               else .error "failed to convert map"
           | _ => .error "MapKeys called on non-map value")
      | .tDynamic => .error "dynamic JSON encoding outside model"
      | _ => .error "unsupported type"
  termination_by structural gv

/-- The flattened-field loop of the Object case: the source walks
`resolveFieldsSquashed` of the value's type and
`resolveFieldsValueSquashed` of the value in lockstep; fields found in
the (snake-cased) declared attributes are converted and recorded, others
are logged and skipped. -/
def ittaFields (fields : GoStructFields) (vfields : GoPairs) (atsSnake : TTypePairs)
    (acc : TValPairs) : Except String TValPairs :=
  match fields, vfields with
  | .nil, _ => .ok acc
  | _, .nil => .ok acc
  | .cons meta t frest, .cons _ v vrest =>
      if meta.tMapstructure = ",squash" then
        (match t, v with
         | .gStructT itfs, .vStructG ivfs =>
             (match ittaFields itfs ivfs atsSnake acc with
              | .error e => .error e
              | .ok acc' => ittaFields frest vrest atsSnake acc')
         | .gStructT itfs, .vPtr (.vStructG ivfs) =>
             (match ittaFields itfs ivfs atsSnake acc with
              | .error e => .error e
              | .ok acc' => ittaFields frest vrest atsSnake acc')
         | .gPtrT (.gStructT itfs), .vStructG ivfs =>
             (match ittaFields itfs ivfs atsSnake acc with
              | .error e => .error e
              | .ok acc' => ittaFields frest vrest atsSnake acc')
         | .gPtrT (.gStructT itfs), .vPtr (.vStructG ivfs) =>
             (match ittaFields itfs ivfs atsSnake acc with
              | .error e => .error e
              | .ok acc' => ittaFields frest vrest atsSnake acc')
         | _, _ => ittaFields frest vrest atsSnake acc)
      else if meta.tMapstructure = "-" then ittaFields frest vrest atsSnake acc
      else if meta.pkgPath ≠ "" then ittaFields frest vrest atsSnake acc
      else
        let tagName := resolveFieldName meta
        match TTypePairs.lookupT atsSnake tagName with
        | some attrType =>
            (match interfaceTypeToAttr t v attrType with
             | .error e => .error ("field '" ++ tagName ++ "': " ++ e)
             | .ok av => ittaFields frest vrest atsSnake (acc.upsert tagName av))
        | none => ittaFields frest vrest atsSnake acc
  termination_by structural vfields

/-- The element loop of the List/Set case. -/
def ittaElems (egt : GoType) (es : GoList) (e : TType) : Except String TValList :=
  match es with
  | .nil => .ok .nil
  | .cons hd rest =>
      match interfaceTypeToAttr egt hd e with
      | .error err => .error err
      | .ok av =>
          (match ittaElems egt rest e with
           | .error err => .error err
           | .ok tl => .ok (.cons av tl))
  termination_by structural es

/-- The element loop of the Tuple case (`typed.ElemTypes[i]` per index;
an element beyond the declared types is an out-of-range panic, modeled
as an error). -/
def ittaTupleElems (ts : TTypeList) (es : GoList) : Except String TValList :=
  match es with
  | .nil => .ok .nil
  | .cons hd rest =>
      match ts with
      | .nil => .error "tuple index out of range"
      | .cons t trest =>
          match interfaceTypeToAttr .gIfaceT hd t with
          | .error err => .error err
          | .ok av =>
              (match ittaTupleElems trest rest with
               | .error err => .error err
               | .ok tl => .ok (.cons av tl))
  termination_by structural es

/-- The entry loop of the Map case. -/
def ittaMapEntries (vgt : GoType) (entries : GoPairs) (e : TType) : Except String TValPairs :=
  match entries with
  | .nil => .ok .nil
  | .cons k v rest =>
      match interfaceTypeToAttr vgt v e with
      | .error err => .error err
      | .ok av =>
          (match ittaMapEntries vgt rest e with
           | .error err => .error err
           | .ok tl => .ok (.cons k av tl))
  termination_by structural entries

end

def warnFieldMsg (tagName : String) : String :=
  "Field '" ++ tagName ++ "' not found in schema attributes"

/-- The record-field loop of `StructToStateObject`: a field whose wire
name is not a declared schema attribute produces a warning and is
skipped; an invalid/unextractable field value stores the
type-appropriate null; otherwise the field value is converted, a
conversion failure aborting the whole conversion. -/
def sssoFieldLoop (fields : List (FieldMeta × GoType × Option GoVal)) (schemaAttrs : TTypePairs)
    (acc : TValPairs) (warns : List String) : Except String (TValPairs × List String) :=
  match fields with
  | [] => .ok (acc, warns)
  | (meta, t, v?) :: rest =>
      let tagName := resolveFieldName meta
      match schemaAttrs.lookupT tagName with
      | none => sssoFieldLoop rest schemaAttrs acc (warns ++ [warnFieldMsg tagName])
      | some attrType =>
          match v? with
          | none =>
              sssoFieldLoop rest schemaAttrs (acc.upsert tagName (getNullValue attrType)) warns
          | some gvv =>
              match interfaceTypeToAttr t gvv attrType with
              | .error e => .error ("field '" ++ tagName ++ "': " ++ e)
              | .ok av => sssoFieldLoop rest schemaAttrs (acc.upsert tagName av) warns

/-- The state-object/null fallback of the fill loop. -/
def fillValueState (state : Option TVal) (attrName : String) (attrType : TType) : TVal :=
  match state with
  | some sobj =>
      (match (TVal.attributesO sobj).lookupA attrName with
       | some av => av
       | none => getNullValue attrType)
  | none => getNullValue attrType

/-- The value used for a schema-declared attribute missing from the
field-derived value map: the plan object's attribute when present, else
the state object's attribute when present, else the type-appropriate
null. -/
def fillValue (plan state : Option TVal) (attrName : String) (attrType : TType) : TVal :=
  match plan with
  | some pobj =>
      (match (TVal.attributesO pobj).lookupA attrName with
       | some av => av
       | none => fillValueState state attrName attrType)
  | none => fillValueState state attrName attrType

/-- The declared-attribute fill loop of `StructToStateObject`. -/
def sssoFillLoop (schemaAttrs : TTypePairs) (plan state : Option TVal) (acc : TValPairs) :
    TValPairs :=
  match schemaAttrs with
  | .nil => acc
  | .cons attrName attrType rest =>
      let acc' :=
        if (acc.lookupA attrName).isSome then acc
        else acc.upsert attrName (fillValue plan state attrName attrType)
      sssoFillLoop rest plan state acc'

/-- `StructToStateObject(ctx, input, state, plan, schemaAttrs)`: convert
the record's flattened fields into attribute values, fill every
remaining declared attribute from the plan object, the state object or
the type-appropriate null, and build the final object (whose
`ObjectValue` validation failure is the source's final error). -/
def StructToStateObject (typ : GoType) (val : GoVal) (state plan : Option TVal)
    (schemaAttrs : TTypePairs) : Except String (TVal × List String) :=
  match sssoFieldLoop (resolveFieldsWithValues typ (some val)) schemaAttrs .nil [] with
  | .error e => .error e
  | .ok (vm, warns) =>
      let filled := sssoFillLoop schemaAttrs plan state vm
      if attrsMatch schemaAttrs filled && attrsDeclared filled schemaAttrs then
        .ok (.vObj schemaAttrs .known filled, warns)
      else .error "object value creation error"

def TTypePairs.keysT : TTypePairs → List String
  | .nil => []
  | .cons k _ rest => k :: keysT rest

/-- Single-motive structural induction for `TTypePairs`. -/
lemma TTypePairs.indT {motive : TTypePairs → Prop} (nil : motive .nil)
    (cons : ∀ k t rest, motive rest → motive (.cons k t rest)) : ∀ m, motive m
  | .nil => nil
  | .cons k t rest => cons k t rest (TTypePairs.indT nil cons rest)
  termination_by structural m => m

lemma sssoFillLoop_not_mem (schemaAttrs : TTypePairs) (plan state : Option TVal)
    (acc : TValPairs) (k : String) (h : k ∉ schemaAttrs.keysT) :
    (sssoFillLoop schemaAttrs plan state acc).lookupA k = acc.lookupA k := by
  induction schemaAttrs using TTypePairs.indT generalizing acc with
  | nil => rfl
  | cons k' t' rest ih =>
      simp only [TTypePairs.keysT, List.mem_cons, not_or] at h
      rw [sssoFillLoop]
      by_cases hs : (acc.lookupA k').isSome
      · simp only [hs, if_true]
        exact ih _ h.2
      · simp only [hs, Bool.false_eq_true, if_false]
        rw [ih _ h.2, lookupA_upsert_ne _ _ _ _ (fun hk => h.1 hk.symm)]

lemma attrsMatch_lookup (ats : TTypePairs) (vs : TValPairs) (k : String) (t : TType)
    (hm : attrsMatch ats vs = true) (hl : ats.lookupT k = some t) :
    ∃ v, vs.lookupA k = some v := by
  induction ats using TTypePairs.indT with
  | nil => simp [TTypePairs.lookupT] at hl
  | cons k' t' rest ih =>
      simp only [attrsMatch, Bool.and_eq_true] at hm
      by_cases hk : k' = k
      · subst hk
        cases hv : vs.lookupA k' with
        | none => simp [hv] at hm
        | some v => exact ⟨v, rfl⟩
      · simp only [TTypePairs.lookupT, if_neg hk] at hl
        exact ih hm.2 hl

/-- C7 counterexample: a schema-declared attribute with no corresponding
record field is NOT filled with the type-appropriate null when the plan
object carries that attribute — the plan's value is used instead. -/
theorem encode_fill_counterexample :
    StructToStateObject (.gStructT .nil) (.vStructG .nil) none
        (some (.vObj (.cons "a" .tString .nil) .known (.cons "a" (.vStr .known "x") .nil)))
        (.cons "a" .tString .nil) =
      .ok (.vObj (.cons "a" .tString .nil) .known (.cons "a" (.vStr .known "x") .nil), []) ∧
    TVal.vStr .known "x" ≠ getNullValue .tString := by
  refine ⟨rfl, ?_⟩
  intro h
  injection h with h1 h2
  exact VState.noConfusion h1

/-- C7 amended: a schema-declared attribute with no corresponding
populated record field is filled from the plan object's attribute when
present, else from the state object's attribute when present, else with
the type-appropriate null (`fillValue`), and an attribute already
populated from a record field is left unchanged — so every declared
attribute is present in the emitted object whenever the conversion
succeeds; a record field whose wire name is not a declared attribute
contributes only a warning, the conversion continuing with the same
value map as if the field were absent. -/
theorem encode_fill_and_warning_characterization :
    (∀ (schemaAttrs : TTypePairs) (plan state : Option TVal) (acc : TValPairs)
        (k : String) (t : TType),
      schemaAttrs.keysT.Nodup → schemaAttrs.lookupT k = some t → acc.lookupA k = none →
      (sssoFillLoop schemaAttrs plan state acc).lookupA k = some (fillValue plan state k t)) ∧
    (∀ (schemaAttrs : TTypePairs) (plan state : Option TVal) (acc : TValPairs)
        (k : String) (v : TVal),
      acc.lookupA k = some v →
      (sssoFillLoop schemaAttrs plan state acc).lookupA k = some v) ∧
    (∀ (typ : GoType) (val : GoVal) (state plan : Option TVal) (schemaAttrs : TTypePairs)
        (o : TVal) (ws : List String) (k : String) (t : TType),
      StructToStateObject typ val state plan schemaAttrs = .ok (o, ws) →
      schemaAttrs.lookupT k = some t →
      ∃ av, (TVal.attributesO o).lookupA k = some av) ∧
    (∀ (meta : FieldMeta) (t : GoType) (v? : Option GoVal)
        (rest : List (FieldMeta × GoType × Option GoVal)) (s : TTypePairs)
        (acc : TValPairs) (w : List String),
      s.lookupT (resolveFieldName meta) = none →
      sssoFieldLoop ((meta, t, v?) :: rest) s acc w =
        sssoFieldLoop rest s acc (w ++ [warnFieldMsg (resolveFieldName meta)])) ∧
    (∀ (fields : List (FieldMeta × GoType × Option GoVal)) (s : TTypePairs)
        (acc : TValPairs) (w : List String),
      Except.map Prod.fst (sssoFieldLoop fields s acc w) =
        Except.map Prod.fst (sssoFieldLoop fields s acc [])) := by
  refine ⟨?_, ?_, ?_, ?_, ?_⟩
  · intro schemaAttrs plan state acc k t hnd hl ha
    induction schemaAttrs using TTypePairs.indT generalizing acc with
    | nil => simp [TTypePairs.lookupT] at hl
    | cons k' t' rest ih =>
        simp only [TTypePairs.keysT, List.nodup_cons] at hnd
        rw [sssoFillLoop]
        by_cases hk : k' = k
        · subst hk
          simp only [TTypePairs.lookupT, eq_self_iff_true, if_true, Option.some.injEq] at hl
          subst hl
          simp only [ha, Option.isSome_none, Bool.false_eq_true, if_false]
          rw [sssoFillLoop_not_mem rest plan state _ k' hnd.1, lookupA_upsert_self]
        · simp only [TTypePairs.lookupT, if_neg hk] at hl
          by_cases hs : (acc.lookupA k').isSome
          · simp only [hs, if_true]
            exact ih acc hnd.2 hl ha
          · simp only [hs, Bool.false_eq_true, if_false]
            exact ih _ hnd.2 hl (by rw [lookupA_upsert_ne _ _ _ _ hk]; exact ha)
  · intro schemaAttrs plan state acc k v ha
    induction schemaAttrs using TTypePairs.indT generalizing acc with
    | nil => exact ha
    | cons k' t' rest ih =>
        rw [sssoFillLoop]
        by_cases hk : k' = k
        · subst hk
          simp only [ha, Option.isSome_some, if_true]
          exact ih _ ha
        · by_cases hs : (acc.lookupA k').isSome
          · simp only [hs, if_true]
            exact ih _ ha
          · simp only [hs, Bool.false_eq_true, if_false]
            exact ih _ (by rw [lookupA_upsert_ne _ _ _ _ hk, ha])
  · intro typ val state plan schemaAttrs o ws k t hok hl
    rw [StructToStateObject] at hok
    cases hf : sssoFieldLoop (resolveFieldsWithValues typ (some val)) schemaAttrs .nil [] with
    | error e => simp only [hf] at hok; exact Except.noConfusion hok
    | ok pr =>
        simp only [hf] at hok
        by_cases hc : (attrsMatch schemaAttrs (sssoFillLoop schemaAttrs plan state pr.1) &&
            attrsDeclared (sssoFillLoop schemaAttrs plan state pr.1) schemaAttrs) = true
        · rcases pr with ⟨vm, warns⟩
          simp only [hc, if_true, Except.ok.injEq, Prod.mk.injEq] at hok
          obtain ⟨ho, hw⟩ := hok
          subst ho
          simp only [Bool.and_eq_true] at hc
          exact attrsMatch_lookup schemaAttrs _ k t hc.1 hl
        · rcases pr with ⟨vm, warns⟩
          simp only [Bool.not_eq_true] at hc
          simp only [hc, Bool.false_eq_true, if_false] at hok
          exact Except.noConfusion hok
  · intro meta t v? rest s acc w hnone
    rw [sssoFieldLoop]
    simp only [hnone]
  · intro fields s acc w
    induction fields generalizing acc w with
    | nil => rfl
    | cons f rest ih =>
        rcases f with ⟨meta, t, v?⟩
        rw [sssoFieldLoop, sssoFieldLoop]
        cases hl : s.lookupT (resolveFieldName meta) with
        | none =>
            simp only [hl]
            rw [ih _ (w ++ [warnFieldMsg (resolveFieldName meta)]),
              ih _ ([] ++ [warnFieldMsg (resolveFieldName meta)])]
        | some attrType =>
            simp only [hl]
            cases v? with
            | none => rw [ih _ w, ih _ ([] : List String)]
            | some gvv =>
                cases hi : interfaceTypeToAttr t gvv attrType with
                | error e => simp only [hi]
                | ok av =>
                    simp only [hi]
                    rw [ih _ w, ih _ ([] : List String)]

/-- C7 amended witness: with neither a plan nor a state attribute the
fill is the type-appropriate null; with a plan attribute present the
plan's value is used; a field with an undeclared wire name adds exactly
its warning. -/
theorem encode_fill_and_warning_characterization_witness :
    (sssoFillLoop (.cons "a" .tString .nil) none none .nil).lookupA "a" =
      some (fillValue none none "a" .tString) ∧
    (sssoFillLoop (.cons "a" .tString .nil)
        (some (.vObj (.cons "a" .tString .nil) .known (.cons "a" (.vStr .known "x") .nil)))
        none .nil).lookupA "a" =
      some (fillValue
        (some (.vObj (.cons "a" .tString .nil) .known (.cons "a" (.vStr .known "x") .nil)))
        none "a" .tString) ∧
    sssoFieldLoop [(⟨"Extra", "zzz", "", "", "", "", "", "", "", "", "", false⟩, .gString,
        some (.vStr "v"))] (.cons "a" .tString .nil) .nil [] =
      sssoFieldLoop [] (.cons "a" .tString .nil) .nil ([] ++ [warnFieldMsg "zzz"]) :=
  ⟨encode_fill_and_warning_characterization.1 (.cons "a" .tString .nil) none none .nil
      "a" .tString (by simp [TTypePairs.keysT]) rfl rfl,
   encode_fill_and_warning_characterization.1 (.cons "a" .tString .nil)
      (some (.vObj (.cons "a" .tString .nil) .known (.cons "a" (.vStr .known "x") .nil)))
      none .nil "a" .tString (by simp [TTypePairs.keysT]) rfl rfl,
   encode_fill_and_warning_characterization.2.2.2.1
      ⟨"Extra", "zzz", "", "", "", "", "", "", "", "", "", false⟩ .gString
      (some (.vStr "v")) [] (.cons "a" .tString .nil) .nil [] rfl⟩

/-! ## C8: schema derivation and duplicate wire names

`resourceSchemaAttrsFromStruct` (schemas_planmodifiers.go) walks the
flattened (squash-resolved) fields of a record type and builds a
`map[string]schema.Attribute` keyed by resolved wire name.  The schema
attribute payloads are modelled structurally: the kind, element type,
description, Optional/Required/Computed/Sensitive flags, and — standing
in for the `Default`, validator and `RequiresReplace` plan-modifier
objects the source attaches — the raw `default`/`choices` tag strings
and the force-new flag that configure them.  `gInt` models the signed
and unsigned integer kinds of the source's `case reflect.Int, ...,
reflect.Uint64` list; `gFloat` the float kinds (present in
`simpleTypes` but absent from that case list, so a float field falls to
the switch's `default: continue`). -/

/-- `strings.HasPrefix` on character lists (helper for `strContains`). -/
def listStartsWith : List Char → List Char → Bool
  | _, [] => true
  | [], _ :: _ => false
  | c :: cs, d :: ds => c = d && listStartsWith cs ds

/-- Substring search on character lists (helper for `strContains`). -/
def listHasSub : List Char → List Char → Bool
  | [], needle => needle.isEmpty
  | c :: cs, needle => listStartsWith (c :: cs) needle || listHasSub cs needle

/-- `strings.Contains(hay, needle)`. -/
def strContains (hay needle : String) : Bool := listHasSub hay.data needle.data

/-- Map-write on an attribute-type map: replace the first binding of the
key, else append (`attrTypes[name] = fieldType`). -/
def TTypePairs.upsertT : TTypePairs → String → TType → TTypePairs
  | .nil, k, t => .cons k t .nil
  | .cons k' t' rest, k, t =>
      if k' = k then .cons k t rest else .cons k' t' (upsertT rest k t)

mutual
/-- `hasInterfaceInnerType`: an interface kind, a slice/array/map whose
element is an interface (recursing into struct or map elements), or a
struct one of whose squash-flattened fields has an interface inner
type.  The source's struct case iterates `resolveFieldsSquashed`; the
companion walk `hasIfaceFields` applies the same squash/`-`/unexported
rules field by field. -/
def hasInterfaceInnerType (t : GoType) : Bool :=
  match t with
  | .gIfaceT => true
  | .gSliceT e =>
      (match e with
       | .gIfaceT => true
       | .gStructT _ => hasInterfaceInnerType e
       | .gMapT _ _ => hasInterfaceInnerType e
       | _ => false)
  | .gArrayT e =>
      (match e with
       | .gIfaceT => true
       | .gStructT _ => hasInterfaceInnerType e
       | .gMapT _ _ => hasInterfaceInnerType e
       | _ => false)
  | .gMapT _ v =>
      (match v with
       | .gIfaceT => true
       | .gStructT _ => hasInterfaceInnerType v
       | .gMapT _ _ => hasInterfaceInnerType v
       | _ => false)
  | .gStructT fs => hasIfaceFields fs
  | _ => false
  termination_by structural t

/-- The struct-field walk of `hasInterfaceInnerType`, mirroring
`resolveFieldsSquashed`'s flattening rules. -/
def hasIfaceFields (fields : GoStructFields) : Bool :=
  match fields with
  | .nil => false
  | .cons meta t rest =>
      if meta.tMapstructure = ",squash" then
        (match t with
         | .gStructT fs => hasIfaceFields fs || hasIfaceFields rest
         | .gPtrT (.gStructT fs) => hasIfaceFields fs || hasIfaceFields rest
         | _ => hasIfaceFields rest)
      else if meta.tMapstructure = "-" then hasIfaceFields rest
      else if meta.pkgPath ≠ "" then hasIfaceFields rest
      else hasInterfaceInnerType t || hasIfaceFields rest
  termination_by structural fields
end

/-- `slices.Contains(simpleTypes, k)`: string, bool, the integer kinds
and the float kinds. -/
def GoType.isSimpleKind : GoType → Bool
  | .gString | .gBool | .gInt | .gFloat => true
  | _ => false

/-- `k.Kind() == reflect.String`. -/
def GoType.isStringKind : GoType → Bool
  | .gString => true
  | _ => false

mutual
/-- `reflectTypeToTerraformType`: strip pointers, then map string →
String, bool → Bool, the signed integer kinds → Int64 (`gInt`),
slice/array → List of the element's type, map (string keys only) → Map
of the element's type, struct → Object over the squash-flattened
exported fields' resolved names, interface → Dynamic; float and channel
kinds fall to the `default` error.  The struct case's companion walk
`rtttFields` accumulates `attrTypes[resolveFieldName(field)] =
fieldType` map-writes (its extra unexported-field skip is the source's
redundant `field.PkgPath != ""` check inside the loop). -/
def reflectTypeToTerraformType (t : GoType) : Except String TType :=
  match t with
  | .gPtrT inner => reflectTypeToTerraformType inner
  | .gString => .ok .tString
  | .gBool => .ok .tBool
  | .gInt => .ok .tInt64
  | .gSliceT e =>
      (match reflectTypeToTerraformType e with
       | .error err => .error err
       | .ok et => .ok (.tList et))
  | .gArrayT e =>
      (match reflectTypeToTerraformType e with
       | .error err => .error err
       | .ok et => .ok (.tList et))
  | .gMapT k v =>
      if k.isStringKind then
        (match reflectTypeToTerraformType v with
         | .error err => .error err
         | .ok et => .ok (.tMap et))
      else .error "map key type must be string"
  | .gStructT fs =>
      (match rtttFields fs .nil with
       | .error err => .error err
       | .ok ats => .ok (.tObject ats))
  | .gIfaceT => .ok .tDynamic
  | .gFloat => .error "unsupported type"
  | .gChanT => .error "unsupported type"
  termination_by structural t

/-- The struct-field walk of `reflectTypeToTerraformType`: squash
fields contribute their embedded fields in place, `-` and unexported
fields are skipped, and any field error aborts the whole conversion. -/
def rtttFields (fields : GoStructFields) (acc : TTypePairs) : Except String TTypePairs :=
  match fields with
  | .nil => .ok acc
  | .cons meta t rest =>
      if meta.tMapstructure = ",squash" then
        (match t with
         | .gStructT fs =>
             (match rtttFields fs acc with
              | .error err => .error err
              | .ok acc' => rtttFields rest acc')
         | .gPtrT (.gStructT fs) =>
             (match rtttFields fs acc with
              | .error err => .error err
              | .ok acc' => rtttFields rest acc')
         | _ => rtttFields rest acc)
      else if meta.tMapstructure = "-" then rtttFields rest acc
      else if meta.pkgPath ≠ "" then rtttFields rest acc
      else
        (match reflectTypeToTerraformType t with
         | .error err => .error err
         | .ok ft => rtttFields rest (acc.upsertT (resolveFieldName meta) ft))
  termination_by structural fields
end

mutual
/-- A `schema.Attribute` as `resourceSchemaAttrsFromStruct` builds
them: kind, element type / nested attributes, description, the
Optional/Required/Computed/Sensitive flags, the raw `default` and
`choices` tag strings (standing in for the `Default` and validator
objects they configure; `""` means none attached) and the force-new
flag (standing in for the `RequiresReplace` plan modifier). -/
inductive SchemaAttr : Type where
  | strAttr (desc : String) (opt req comp sens : Bool) (dflt choices : String) (forceNew : Bool)
  | boolAttr (desc : String) (opt req comp sens : Bool) (dflt : String) (forceNew : Bool)
  | int64Attr (desc : String) (opt req comp sens : Bool) (dflt : String) (forceNew : Bool)
  | dynAttr (desc : String) (opt req comp sens : Bool)
  | setAttr (elemType : TType) (desc : String) (opt req comp sens : Bool) (dflt choices : String) (forceNew : Bool)
  | listAttr (elemType : TType) (desc : String) (opt req comp sens : Bool) (dflt choices : String) (forceNew : Bool)
  | mapAttr (elemType : TType) (desc : String) (opt req comp sens : Bool) (forceNew : Bool)
  | listNestedAttr (nested : SchemaAttrs) (desc : String) (opt req comp sens : Bool)
  | mapNestedAttr (nested : SchemaAttrs) (desc : String) (opt req comp sens : Bool)
  | singleNestedAttr (nested : SchemaAttrs) (desc : String) (opt req comp sens : Bool)

/-- The `map[string]schema.Attribute` being built, as an association
list written with map semantics (`upsertS`). -/
inductive SchemaAttrs : Type where
  | nil
  | cons (k : String) (a : SchemaAttr) (tl : SchemaAttrs)
end

/-- Map-write `attributes[fieldName] = attr`: replace the first binding
of the key, else append. -/
def SchemaAttrs.upsertS : SchemaAttrs → String → SchemaAttr → SchemaAttrs
  | .nil, k, a => .cons k a .nil
  | .cons k' a' rest, k, a =>
      if k' = k then .cons k a rest else .cons k' a' (upsertS rest k a)

/-- Map lookup on the built attribute map. -/
def SchemaAttrs.lookupS : SchemaAttrs → String → Option SchemaAttr
  | .nil, _ => none
  | .cons k' a rest, k => if k' = k then some a else lookupS rest k

/-- Number of attributes in the built map. -/
def SchemaAttrs.lengthS : SchemaAttrs → Nat
  | .nil => 0
  | .cons _ _ rest => 1 + lengthS rest

/-- The `schema.DynamicAttribute` both branches build (computed, or
flagged from requiredness). -/
def dynAttrFor (desc : String) (setAsComputed isRequired isSensitive : Bool) : SchemaAttr :=
  if setAsComputed then .dynAttr desc true false true isSensitive
  else .dynAttr desc (!isRequired) isRequired (!isRequired) isSensitive

mutual
/-- `resourceSchemaAttrsFromStruct(inputModel, setAsComputed,
sensitiveAttrs, extraRequiredAttrs, computedAsSetAttrs)`: one pointer
dereference of the model type, then the field walk over the
squash-flattened fields (`resolveFieldsSquashed`'s own dereference
handles a second pointer level), building the attribute map.  The
return type records the source signature: a plain
`map[string]schema.Attribute`, with no error channel. -/
def resourceSchemaAttrsFromStruct (inputModel : GoType) (setAsComputed : Bool)
    (sensitiveAttrs extraRequiredAttrs computedAsSetAttrs : List String) : SchemaAttrs :=
  match inputModel with
  | .gPtrT (.gPtrT (.gStructT fs)) =>
      rsafsLoop fs setAsComputed sensitiveAttrs extraRequiredAttrs computedAsSetAttrs .nil
  | .gPtrT (.gStructT fs) =>
      rsafsLoop fs setAsComputed sensitiveAttrs extraRequiredAttrs computedAsSetAttrs .nil
  | .gStructT fs =>
      rsafsLoop fs setAsComputed sensitiveAttrs extraRequiredAttrs computedAsSetAttrs .nil
  | _ => .nil
  termination_by structural inputModel

/-- The field loop: `resolveFieldsSquashed`'s flattening rules applied
field by field (squash fields contribute their embedded fields in
place; `-` and unexported fields are skipped), then the per-kind
attribute construction (`rsafsField`, which performs the source's
single pointer dereference of the field's type). -/
def rsafsLoop (fields : GoStructFields) (setAsComputed : Bool)
    (sensitiveAttrs extraRequiredAttrs computedAsSetAttrs : List String)
    (attributes : SchemaAttrs) : SchemaAttrs :=
  match fields with
  | .nil => attributes
  | .cons meta t rest =>
      if meta.tMapstructure = ",squash" then
        (match t with
         | .gStructT fs =>
             rsafsLoop rest setAsComputed sensitiveAttrs extraRequiredAttrs computedAsSetAttrs
               (rsafsLoop fs setAsComputed sensitiveAttrs extraRequiredAttrs computedAsSetAttrs attributes)
         | .gPtrT (.gStructT fs) =>
             rsafsLoop rest setAsComputed sensitiveAttrs extraRequiredAttrs computedAsSetAttrs
               (rsafsLoop fs setAsComputed sensitiveAttrs extraRequiredAttrs computedAsSetAttrs attributes)
         | _ =>
             rsafsLoop rest setAsComputed sensitiveAttrs extraRequiredAttrs computedAsSetAttrs attributes)
      else if meta.tMapstructure = "-" then
        rsafsLoop rest setAsComputed sensitiveAttrs extraRequiredAttrs computedAsSetAttrs attributes
      else if meta.pkgPath ≠ "" then
        rsafsLoop rest setAsComputed sensitiveAttrs extraRequiredAttrs computedAsSetAttrs attributes
      else
        rsafsLoop rest setAsComputed sensitiveAttrs extraRequiredAttrs computedAsSetAttrs
          (rsafsField meta setAsComputed sensitiveAttrs extraRequiredAttrs computedAsSetAttrs t attributes)
  termination_by structural fields

/-- The per-field switch on the (pointer-dereferenced) field kind.
Tag-derived data: `isRequired` from the `required`/`validate` tags or
`extraRequiredAttrs`, `isSensitive`/`isForceNew` from their lists and
tag, wire name from `resolveFieldName`.  String/bool/int fields build
scalar attributes (a non-empty `default` tag forces
optional+computed); slices and arrays build Dynamic (interface inner
type), Set or List of a simple element (Set when the name is in
`computedAsSetAttrs`; an element the type converter rejects skips the
field), List of `Map(String)` (string-keyed map element) or
ListNested (struct element, recursing); maps build Dynamic, Map of a
simple element, or MapNested; structs build SingleNested; interfaces
build Dynamic; float, channel and doubly-pointered fields fall to the
switch's `default: continue`.  Every construction ends in the
map-write `attributes[fieldName] = attr` — a duplicate wire name
silently overwrites the earlier attribute. -/
def rsafsField (meta : FieldMeta) (setAsComputed : Bool)
    (sensitiveAttrs extraRequiredAttrs computedAsSetAttrs : List String)
    (fieldType : GoType) (attributes : SchemaAttrs) : SchemaAttrs :=
  let desc := meta.tDesc
  let fieldName := resolveFieldName meta
  let isRequired := strContains meta.tRequired "true" || strContains meta.tValidate "required"
      || extraRequiredAttrs.contains fieldName
  let isSensitive := sensitiveAttrs.contains fieldName
  let isForceNew := strContains meta.tForceNew "true"
  let dflt := meta.tDefault
  let choices := meta.tChoices
  match fieldType with
  | .gPtrT (.gPtrT _) => attributes
  | .gPtrT inner =>
      rsafsField meta setAsComputed sensitiveAttrs extraRequiredAttrs computedAsSetAttrs
        inner attributes
  | .gString =>
      if setAsComputed then
        attributes.upsertS fieldName (.strAttr desc true false true isSensitive "" "" false)
      else if dflt = "" then
        attributes.upsertS fieldName
          (.strAttr desc (!isRequired) isRequired (!isRequired) isSensitive "" choices isForceNew)
      else
        attributes.upsertS fieldName
          (.strAttr desc true false true isSensitive dflt choices isForceNew)
  | .gBool =>
      if setAsComputed then
        attributes.upsertS fieldName (.boolAttr desc true false true isSensitive "" false)
      else if dflt = "" then
        attributes.upsertS fieldName
          (.boolAttr desc (!isRequired) isRequired (!isRequired) isSensitive "" isForceNew)
      else
        attributes.upsertS fieldName
          (.boolAttr desc true false true isSensitive dflt isForceNew)
  | .gInt =>
      if setAsComputed then
        attributes.upsertS fieldName (.int64Attr desc true false true isSensitive "" false)
      else if dflt = "" then
        attributes.upsertS fieldName
          (.int64Attr desc (!isRequired) isRequired (!isRequired) isSensitive "" isForceNew)
      else
        attributes.upsertS fieldName
          (.int64Attr desc true false true isSensitive dflt isForceNew)
  | .gSliceT e =>
      if hasInterfaceInnerType (.gSliceT e) then
        attributes.upsertS fieldName (dynAttrFor desc setAsComputed isRequired isSensitive)
      else
        rsafsSliceElem meta setAsComputed sensitiveAttrs extraRequiredAttrs computedAsSetAttrs e attributes
  | .gArrayT e =>
      if hasInterfaceInnerType (.gArrayT e) then
        attributes.upsertS fieldName (dynAttrFor desc setAsComputed isRequired isSensitive)
      else
        rsafsSliceElem meta setAsComputed sensitiveAttrs extraRequiredAttrs computedAsSetAttrs e attributes
  | .gMapT k v =>
      if hasInterfaceInnerType (.gMapT k v) then
        attributes.upsertS fieldName (dynAttrFor desc setAsComputed isRequired isSensitive)
      else
        (match v with
         | .gString | .gBool | .gInt | .gFloat =>
             (match reflectTypeToTerraformType v with
              | .error _ => attributes
              | .ok terra =>
                  if setAsComputed then
                    attributes.upsertS fieldName (.mapAttr terra desc true false true isSensitive false)
                  else
                    attributes.upsertS fieldName
                      (.mapAttr terra desc (!isRequired) isRequired (!isRequired) isSensitive isForceNew))
         | .gIfaceT =>
             attributes.upsertS fieldName (dynAttrFor desc setAsComputed isRequired isSensitive)
         | .gStructT efs =>
             let nested := rsafsLoop efs setAsComputed sensitiveAttrs extraRequiredAttrs computedAsSetAttrs .nil
             if setAsComputed then
               attributes.upsertS fieldName (.mapNestedAttr nested desc true false true isSensitive)
             else
               attributes.upsertS fieldName
                 (.mapNestedAttr nested desc (!isRequired) isRequired (!isRequired) isSensitive)
         | _ => attributes)
  | .gStructT fs =>
      let nested := rsafsLoop fs setAsComputed sensitiveAttrs extraRequiredAttrs computedAsSetAttrs .nil
      if setAsComputed then
        attributes.upsertS fieldName (.singleNestedAttr nested desc true false true isSensitive)
      else
        attributes.upsertS fieldName
          (.singleNestedAttr nested desc (!isRequired) isRequired (!isRequired) isSensitive)
  | .gIfaceT =>
      attributes.upsertS fieldName (dynAttrFor desc setAsComputed isRequired isSensitive)
  | _ => attributes
  termination_by structural fieldType

/-- The slice/array element dispatch (field type already known to have
no interface inner type): simple element kinds convert and build Set or
List attributes; a string-keyed map element builds a List of
`Map(String)`; a struct element builds a ListNested attribute over the
recursively derived schema; anything else skips the field. -/
def rsafsSliceElem (meta : FieldMeta) (setAsComputed : Bool)
    (sensitiveAttrs extraRequiredAttrs computedAsSetAttrs : List String)
    (e : GoType) (attributes : SchemaAttrs) : SchemaAttrs :=
  let desc := meta.tDesc
  let fieldName := resolveFieldName meta
  let isRequired := strContains meta.tRequired "true" || strContains meta.tValidate "required"
      || extraRequiredAttrs.contains fieldName
  let isSensitive := sensitiveAttrs.contains fieldName
  let isForceNew := strContains meta.tForceNew "true"
  let dflt := meta.tDefault
  let choices := meta.tChoices
  match e with
  | .gString | .gBool | .gInt | .gFloat =>
      (match reflectTypeToTerraformType e with
       | .error _ => attributes
       | .ok terra =>
           if computedAsSetAttrs.contains fieldName then
             if setAsComputed then
               attributes.upsertS fieldName (.setAttr terra desc true false true isSensitive "" "" false)
             else if dflt = "" then
               attributes.upsertS fieldName
                 (.setAttr terra desc (!isRequired) isRequired (!isRequired) isSensitive "" choices isForceNew)
             else
               attributes.upsertS fieldName
                 (.setAttr terra desc true false true isSensitive dflt choices isForceNew)
           else
             if setAsComputed then
               attributes.upsertS fieldName (.listAttr terra desc true false true isSensitive "" "" false)
             else if dflt = "" then
               attributes.upsertS fieldName
                 (.listAttr terra desc (!isRequired) isRequired (!isRequired) isSensitive "" choices isForceNew)
             else
               attributes.upsertS fieldName
                 (.listAttr terra desc true false true isSensitive dflt choices isForceNew))
  | .gMapT k _ =>
      if k.isStringKind then
        if setAsComputed then
          attributes.upsertS fieldName (.listAttr (.tMap .tString) desc true false true isSensitive "" "" false)
        else
          attributes.upsertS fieldName
            (.listAttr (.tMap .tString) desc (!isRequired) isRequired (!isRequired) isSensitive "" "" isForceNew)
      else attributes
  | .gStructT efs =>
      let nested := rsafsLoop efs setAsComputed sensitiveAttrs extraRequiredAttrs computedAsSetAttrs .nil
      if setAsComputed then
        attributes.upsertS fieldName (.listNestedAttr nested desc true false true isSensitive)
      else
        attributes.upsertS fieldName
          (.listNestedAttr nested desc (!isRequired) isRequired (!isRequired) isSensitive)
  | _ => attributes
  termination_by structural e
end

/-- Single-motive structural induction for `SchemaAttrs`. -/
lemma SchemaAttrs.indS {motive : SchemaAttrs → Prop} (nil : motive .nil)
    (cons : ∀ k a tl, motive tl → motive (.cons k a tl)) : ∀ s, motive s
  | .nil => nil
  | .cons k a tl => cons k a tl (SchemaAttrs.indS nil cons tl)
  termination_by structural s => s

/-- A map-write makes the written attribute the key's binding. -/
lemma lookupS_upsertS_self (s : SchemaAttrs) (k : String) (a : SchemaAttr) :
    (s.upsertS k a).lookupS k = some a := by
  induction s using SchemaAttrs.indS with
  | nil => simp [SchemaAttrs.upsertS, SchemaAttrs.lookupS]
  | cons k' a' rest ih =>
      by_cases h : k' = k <;> simp [SchemaAttrs.upsertS, SchemaAttrs.lookupS, h, ih]

/-- A record field named `A` (resp. `B`) carrying a `mapstructure:"name"`
tag and a `desc` tag. -/
def conflictFieldA (d : String) : FieldMeta :=
  ⟨"A", "name", "", "", d, "", "", "", "", "", "", false⟩

/-- The second field with the same `mapstructure:"name"` tag. -/
def conflictFieldB (d : String) : FieldMeta :=
  ⟨"B", "name", "", "", d, "", "", "", "", "", "", false⟩

/-- A record type whose two string fields resolve to the same wire name
`name`. -/
def conflictStruct (d1 d2 : String) : GoType :=
  .gStructT (.cons (conflictFieldA d1) .gString
    (.cons (conflictFieldB d2) .gString .nil))

/-- C8 counterexample: deriving a schema from a record with two fields
both resolving to the wire name `name` does not fail — the source has
no `SchemaConflictError` (the identifier occurs nowhere in the
repository) and `resourceSchemaAttrsFromStruct` has no error channel —
it silently returns a one-attribute schema carrying the second field's
attribute (`desc` `second`), the first field's attribute (`desc`
`first`) having been overwritten by the map-write. -/
theorem schema_conflict_counterexample :
    resourceSchemaAttrsFromStruct (conflictStruct "first" "second") false [] [] [] =
      .cons "name" (.strAttr "second" true false true false "" "" false) .nil := rfl

/-- C8 (amended): for a record whose two fields resolve to the same
wire name, schema derivation does not fail: both fields' attributes are
written to the attribute map under the same key, and the later
map-write silently overwrites the earlier one, yielding a one-attribute
schema carrying the later field's attribute; in general the second of
two map-writes under one key is the key's final binding. -/
theorem schema_conflict_silent_overwrite :
    (∀ d1 d2 : String,
      resolveFieldName (conflictFieldA d1) = resolveFieldName (conflictFieldB d2) ∧
      resourceSchemaAttrsFromStruct (conflictStruct d1 d2) false [] [] [] =
        .cons "name" (.strAttr d2 true false true false "" "" false) .nil ∧
      (resourceSchemaAttrsFromStruct (conflictStruct d1 d2) false [] [] []).lengthS = 1) ∧
    (∀ (attrs : SchemaAttrs) (k : String) (a b : SchemaAttr),
      ((attrs.upsertS k a).upsertS k b).lookupS k = some b) := by
  refine ⟨fun d1 d2 => ⟨rfl, rfl, rfl⟩, fun attrs k a b => lookupS_upsertS_self _ _ _⟩

/-! ## C9: deepCopy

`deepCopy` (part_006) recursively copies a reflected value: a non-nil
pointer is copied through a fresh `reflect.New` allocation, a non-nil
slice through a fresh `reflect.MakeSlice` backing array, a non-nil map
through a fresh `reflect.MakeMapWithSize` (values and keys copied), an
array and a struct element-wise and field-wise into a fresh
`reflect.New(...).Elem()` value — where a field of the copy that is not settable (an
unexported field) is skipped, remaining at its zero value — an
interface's inner value is copied and re-wrapped, nil pointers, slices,
maps and interfaces map to their zero values, and every other kind
(scalars, strings) is returned as is.  `RVal` models such values with a
symbolic allocation id (`Nat`) on every pointer, slice and map node
naming its mutable backing storage; map keys are strings (Go string
keys are immutable and copy to themselves); channel and function kinds,
which the source's `default` branch returns unchanged (shared), carry
no reachable scalars and are not modelled.  `deepCopy` threads a fresh-
id counter; the order in which fresh ids are drawn is immaterial, only
that they are fresh. -/

mutual
inductive RVal : Type where
  | rBool (b : Bool)
  | rStr (s : String)
  | rInt (n : Int)
  | rPtrNil
  | rPtr (id : Nat) (pointee : RVal)
  | rSliceNil
  | rSlice (id : Nat) (elems : RList)
  | rMapNil
  | rMap (id : Nat) (entries : RPairs)
  | rIfaceNil
  | rIface (inner : RVal)
  | rArr (elems : RList)
  | rStructR (fields : RFields)

inductive RList : Type where
  | nil
  | cons (hd : RVal) (tl : RList)

inductive RPairs : Type where
  | nil
  | cons (k : String) (v : RVal) (tl : RPairs)

/-- Struct fields carry `CanSet` (false for unexported fields). -/
inductive RFields : Type where
  | nil
  | cons (name : String) (settable : Bool) (v : RVal) (tl : RFields)
end

mutual
/-- `deepCopy(v)`: the source recursion, threading a fresh-allocation
counter; each `reflect.New` / `MakeSlice` / `MakeMapWithSize` draws a
fresh id for the copy's backing storage. -/
def deepCopy (fresh : Nat) (v : RVal) : RVal × Nat :=
  match v with
  | .rBool b => (.rBool b, fresh)
  | .rStr s => (.rStr s, fresh)
  | .rInt n => (.rInt n, fresh)
  | .rPtrNil => (.rPtrNil, fresh)
  | .rPtr _ p =>
      (match deepCopy fresh p with
       | (c, f') => (.rPtr f' c, f' + 1))
  | .rIfaceNil => (.rIfaceNil, fresh)
  | .rIface w =>
      (match deepCopy fresh w with
       | (c, f') => (.rIface c, f'))
  | .rSliceNil => (.rSliceNil, fresh)
  | .rSlice _ es =>
      (match deepCopyL fresh es with
       | (cs, f') => (.rSlice f' cs, f' + 1))
  | .rMapNil => (.rMapNil, fresh)
  | .rMap _ ps =>
      (match deepCopyP fresh ps with
       | (cs, f') => (.rMap f' cs, f' + 1))
  | .rArr es =>
      (match deepCopyL fresh es with
       | (cs, f') => (.rArr cs, f'))
  | .rStructR fs =>
      (match deepCopyF fresh fs with
       | (cs, f') => (.rStructR cs, f'))
  termination_by structural v

/-- Element-wise copy of a slice's or array's elements. -/
def deepCopyL (fresh : Nat) (es : RList) : RList × Nat :=
  match es with
  | .nil => (.nil, fresh)
  | .cons e tl =>
      (match deepCopy fresh e with
       | (c, f') =>
           (match deepCopyL f' tl with
            | (cs, f'') => (.cons c cs, f'')))
  termination_by structural es

/-- Entry-wise copy of a map's entries (`deepCopy(key)` on a string key
returns the key itself). -/
def deepCopyP (fresh : Nat) (ps : RPairs) : RPairs × Nat :=
  match ps with
  | .nil => (.nil, fresh)
  | .cons k v tl =>
      (match deepCopy fresh v with
       | (c, f') =>
           (match deepCopyP f' tl with
            | (cs, f'') => (.cons k c cs, f'')))
  termination_by structural ps

/-- Field-wise copy of a struct's fields: a field the copy cannot set
is skipped and remains at the zero value `reflect.New` gave it. -/
def deepCopyF (fresh : Nat) (fs : RFields) : RFields × Nat :=
  match fs with
  | .nil => (.nil, fresh)
  | .cons n set v tl =>
      if set then
        (match deepCopy fresh v with
         | (c, f') =>
             (match deepCopyF f' tl with
              | (cs, f'') => (.cons n set c cs, f'')))
      else
        (match deepCopyF fresh tl with
         | (cs, f') => (.cons n set (zeroLike v) cs, f'))
  termination_by structural fs

/-- `reflect.Zero` of a value's type, shaped from the value. -/
def zeroLike (v : RVal) : RVal :=
  match v with
  | .rBool _ => .rBool false
  | .rStr _ => .rStr ""
  | .rInt _ => .rInt 0
  | .rPtrNil => .rPtrNil
  | .rPtr _ _ => .rPtrNil
  | .rSliceNil => .rSliceNil
  | .rSlice _ _ => .rSliceNil
  | .rMapNil => .rMapNil
  | .rMap _ _ => .rMapNil
  | .rIfaceNil => .rIfaceNil
  | .rIface _ => .rIfaceNil
  | .rArr es => .rArr (zeroLikeL es)
  | .rStructR fs => .rStructR (zeroLikeF fs)
  termination_by structural v

/-- Zero value of an array type, element-wise. -/
def zeroLikeL (es : RList) : RList :=
  match es with
  | .nil => .nil
  | .cons e tl => .cons (zeroLike e) (zeroLikeL tl)
  termination_by structural es

/-- Zero value of a struct type, field-wise. -/
def zeroLikeF (fs : RFields) : RFields :=
  match fs with
  | .nil => .nil
  | .cons n set v tl => .cons n set (zeroLike v) (zeroLikeF tl)
  termination_by structural fs
end

mutual
/-- The allocation ids of every pointer, slice and map backing storage
reachable from a value. -/
def RVal.ids (v : RVal) : List Nat :=
  match v with
  | .rPtr id p => id :: p.ids
  | .rSlice id es => id :: idsL es
  | .rMap id ps => id :: idsP ps
  | .rIface w => w.ids
  | .rArr es => idsL es
  | .rStructR fs => idsF fs
  | _ => []
  termination_by structural v

def idsL (es : RList) : List Nat :=
  match es with
  | .nil => []
  | .cons e tl => e.ids ++ idsL tl
  termination_by structural es

def idsP (ps : RPairs) : List Nat :=
  match ps with
  | .nil => []
  | .cons _ v tl => v.ids ++ idsP tl
  termination_by structural ps

def idsF (fs : RFields) : List Nat :=
  match fs with
  | .nil => []
  | .cons _ _ v tl => v.ids ++ idsF tl
  termination_by structural fs
end

mutual
/-- Structure with the storage identities erased (all ids set to 0):
what Go code, which cannot observe allocation identity, sees of a
value. -/
def RVal.erase (v : RVal) : RVal :=
  match v with
  | .rPtr _ p => .rPtr 0 p.erase
  | .rSlice _ es => .rSlice 0 (eraseL es)
  | .rMap _ ps => .rMap 0 (eraseP ps)
  | .rIface w => .rIface w.erase
  | .rArr es => .rArr (eraseL es)
  | .rStructR fs => .rStructR (eraseF fs)
  | w => w
  termination_by structural v

def eraseL (es : RList) : RList :=
  match es with
  | .nil => .nil
  | .cons e tl => .cons e.erase (eraseL tl)
  termination_by structural es

def eraseP (ps : RPairs) : RPairs :=
  match ps with
  | .nil => .nil
  | .cons k v tl => .cons k v.erase (eraseP tl)
  termination_by structural ps

def eraseF (fs : RFields) : RFields :=
  match fs with
  | .nil => .nil
  | .cons n set v tl => .cons n set v.erase (eraseF tl)
  termination_by structural fs
end

mutual
/-- Every struct field reachable from the value is settable (no
unexported fields anywhere). -/
def RVal.allSettable (v : RVal) : Bool :=
  match v with
  | .rPtr _ p => p.allSettable
  | .rSlice _ es => allSettableL es
  | .rMap _ ps => allSettableP ps
  | .rIface w => w.allSettable
  | .rArr es => allSettableL es
  | .rStructR fs => allSettableF fs
  | _ => true
  termination_by structural v

def allSettableL (es : RList) : Bool :=
  match es with
  | .nil => true
  | .cons e tl => e.allSettable && allSettableL tl
  termination_by structural es

def allSettableP (ps : RPairs) : Bool :=
  match ps with
  | .nil => true
  | .cons _ v tl => v.allSettable && allSettableP tl
  termination_by structural ps

def allSettableF (fs : RFields) : Bool :=
  match fs with
  | .nil => true
  | .cons _ set v tl => set && v.allSettable && allSettableF tl
  termination_by structural fs
end

/-- A single store into a named backing storage: through a pointer
(`*p = v`), into a slice cell (`s[i] = v`), or into a map key
(`m[k] = v`). -/
inductive RWrite : Type where
  | wPtr (newv : RVal)
  | wSlice (i : Nat) (newv : RVal)
  | wMap (key : String) (newv : RVal)

/-- Write the `i`-th cell of a backing array. -/
def writeCell : Nat → RVal → RList → RList
  | _, _, .nil => .nil
  | 0, nv, .cons _ tl => .cons nv tl
  | n + 1, nv, .cons e tl => .cons e (writeCell n nv tl)

/-- Write a key's entry in a map's buckets (replace or add). -/
def writeEntry (key : String) (nv : RVal) : RPairs → RPairs
  | .nil => .cons key nv .nil
  | .cons k v tl =>
      if k = key then .cons key nv tl else .cons k v (writeEntry key nv tl)

/-- The effect of a store on a pointer's pointee (a kind-mismatched
store does not apply). -/
def storeAtPtr (w : RWrite) (p : RVal) : RVal :=
  match w with
  | .wPtr nv => nv
  | _ => p

/-- The effect of a store on a slice's backing array. -/
def storeAtSlice (w : RWrite) (es : RList) : RList :=
  match w with
  | .wSlice i nv => writeCell i nv es
  | _ => es

/-- The effect of a store on a map's buckets. -/
def storeAtMap (w : RWrite) (ps : RPairs) : RPairs :=
  match w with
  | .wMap k nv => writeEntry k nv ps
  | _ => ps

mutual
/-- Apply the store `w` to the storage with id `loc` wherever that
storage is reachable from the value. -/
def mutate (loc : Nat) (w : RWrite) (v : RVal) : RVal :=
  match v with
  | .rPtr id p =>
      if id = loc then .rPtr id (storeAtPtr w p)
      else .rPtr id (mutate loc w p)
  | .rSlice id es =>
      if id = loc then .rSlice id (storeAtSlice w es)
      else .rSlice id (mutateL loc w es)
  | .rMap id ps =>
      if id = loc then .rMap id (storeAtMap w ps)
      else .rMap id (mutateP loc w ps)
  | .rIface iv => .rIface (mutate loc w iv)
  | .rArr es => .rArr (mutateL loc w es)
  | .rStructR fs => .rStructR (mutateF loc w fs)
  | u => u
  termination_by structural v

def mutateL (loc : Nat) (w : RWrite) (es : RList) : RList :=
  match es with
  | .nil => .nil
  | .cons e tl => .cons (mutate loc w e) (mutateL loc w tl)
  termination_by structural es

def mutateP (loc : Nat) (w : RWrite) (ps : RPairs) : RPairs :=
  match ps with
  | .nil => .nil
  | .cons k v tl => .cons k (mutate loc w v) (mutateP loc w tl)
  termination_by structural ps

def mutateF (loc : Nat) (w : RWrite) (fs : RFields) : RFields :=
  match fs with
  | .nil => .nil
  | .cons n set v tl => .cons n set (mutate loc w v) (mutateF loc w tl)
  termination_by structural fs
end

mutual
/-- A zero value names no backing storage. -/
lemma ids_zeroLike (v : RVal) : (zeroLike v).ids = [] :=
  match v with
  | .rBool _ => rfl
  | .rStr _ => rfl
  | .rInt _ => rfl
  | .rPtrNil => rfl
  | .rPtr _ _ => rfl
  | .rSliceNil => rfl
  | .rSlice _ _ => rfl
  | .rMapNil => rfl
  | .rMap _ _ => rfl
  | .rIfaceNil => rfl
  | .rIface _ => rfl
  | .rArr es => by simp [zeroLike, RVal.ids, ids_zeroLikeL es]
  | .rStructR fs => by simp [zeroLike, RVal.ids, ids_zeroLikeF fs]
  termination_by structural v

lemma ids_zeroLikeL (es : RList) : idsL (zeroLikeL es) = [] :=
  match es with
  | .nil => rfl
  | .cons e tl => by simp [zeroLikeL, idsL, ids_zeroLike e, ids_zeroLikeL tl]
  termination_by structural es

lemma ids_zeroLikeF (fs : RFields) : idsF (zeroLikeF fs) = [] :=
  match fs with
  | .nil => rfl
  | .cons n set v tl => by simp [zeroLikeF, idsF, ids_zeroLike v, ids_zeroLikeF tl]
  termination_by structural fs
end

mutual
/-- For a value all of whose struct fields are settable, the copy has
the same structure as the original once storage identities are
erased. -/
lemma erase_deepCopy (v : RVal) (f : Nat) (h : v.allSettable = true) :
    ((deepCopy f v).1).erase = v.erase :=
  match v with
  | .rBool _ => rfl
  | .rStr _ => rfl
  | .rInt _ => rfl
  | .rPtrNil => rfl
  | .rIfaceNil => rfl
  | .rSliceNil => rfl
  | .rMapNil => rfl
  | .rPtr id p => by
      have hp : p.allSettable = true := by simpa [RVal.allSettable] using h
      have ih := erase_deepCopy p f hp
      cases hdc : deepCopy f p with
      | mk c f' =>
          simp [hdc] at ih
          simp [deepCopy, hdc, RVal.erase, ih]
  | .rIface w => by
      have hw : w.allSettable = true := by simpa [RVal.allSettable] using h
      have ih := erase_deepCopy w f hw
      cases hdc : deepCopy f w with
      | mk c f' =>
          simp [hdc] at ih
          simp [deepCopy, hdc, RVal.erase, ih]
  | .rSlice id es => by
      have hs : allSettableL es = true := by simpa [RVal.allSettable] using h
      have ih := erase_deepCopyL es f hs
      cases hdc : deepCopyL f es with
      | mk cs f' =>
          simp [hdc] at ih
          simp [deepCopy, hdc, RVal.erase, ih]
  | .rMap id ps => by
      have hs : allSettableP ps = true := by simpa [RVal.allSettable] using h
      have ih := erase_deepCopyP ps f hs
      cases hdc : deepCopyP f ps with
      | mk cs f' =>
          simp [hdc] at ih
          simp [deepCopy, hdc, RVal.erase, ih]
  | .rArr es => by
      have hs : allSettableL es = true := by simpa [RVal.allSettable] using h
      have ih := erase_deepCopyL es f hs
      cases hdc : deepCopyL f es with
      | mk cs f' =>
          simp [hdc] at ih
          simp [deepCopy, hdc, RVal.erase, ih]
  | .rStructR fs => by
      have hs : allSettableF fs = true := by simpa [RVal.allSettable] using h
      have ih := erase_deepCopyF fs f hs
      cases hdc : deepCopyF f fs with
      | mk cs f' =>
          simp [hdc] at ih
          simp [deepCopy, hdc, RVal.erase, ih]
  termination_by structural v

lemma erase_deepCopyL (es : RList) (f : Nat) (h : allSettableL es = true) :
    eraseL ((deepCopyL f es).1) = eraseL es :=
  match es with
  | .nil => rfl
  | .cons e tl => by
      obtain ⟨he, ht⟩ : e.allSettable = true ∧ allSettableL tl = true := by
        simpa [allSettableL, Bool.and_eq_true] using h
      cases hdc : deepCopy f e with
      | mk c f' =>
          cases hdl : deepCopyL f' tl with
          | mk cs f'' =>
              have ih1 := erase_deepCopy e f he
              have ih2 := erase_deepCopyL tl f' ht
              simp [hdc] at ih1
              simp [hdl] at ih2
              simp [deepCopyL, hdc, hdl, eraseL, ih1, ih2]
  termination_by structural es

lemma erase_deepCopyP (ps : RPairs) (f : Nat) (h : allSettableP ps = true) :
    eraseP ((deepCopyP f ps).1) = eraseP ps :=
  match ps with
  | .nil => rfl
  | .cons k v tl => by
      obtain ⟨hv, ht⟩ : v.allSettable = true ∧ allSettableP tl = true := by
        simpa [allSettableP, Bool.and_eq_true] using h
      cases hdc : deepCopy f v with
      | mk c f' =>
          cases hdl : deepCopyP f' tl with
          | mk cs f'' =>
              have ih1 := erase_deepCopy v f hv
              have ih2 := erase_deepCopyP tl f' ht
              simp [hdc] at ih1
              simp [hdl] at ih2
              simp [deepCopyP, hdc, hdl, eraseP, ih1, ih2]
  termination_by structural ps

lemma erase_deepCopyF (fs : RFields) (f : Nat) (h : allSettableF fs = true) :
    eraseF ((deepCopyF f fs).1) = eraseF fs :=
  match fs with
  | .nil => rfl
  | .cons n set v tl => by
      obtain ⟨hset, hv, ht⟩ :
          set = true ∧ v.allSettable = true ∧ allSettableF tl = true := by
        simpa [allSettableF, Bool.and_eq_true, and_assoc] using h
      subst hset
      cases hdc : deepCopy f v with
      | mk c f' =>
          cases hdl : deepCopyF f' tl with
          | mk cs f'' =>
              have ih1 := erase_deepCopy v f hv
              have ih2 := erase_deepCopyF tl f' ht
              simp [hdc] at ih1
              simp [hdl] at ih2
              simp [deepCopyF, hdc, hdl, eraseF, ih1, ih2]
  termination_by structural fs
end

mutual
/-- The copy's fresh counter never decreases, and every backing-storage
id of the copy is at least the starting counter. -/
lemma dc_lb (v : RVal) (f : Nat) :
    f ≤ (deepCopy f v).2 ∧ ∀ j, j ∈ RVal.ids ((deepCopy f v).1) → f ≤ j :=
  match v with
  | .rBool _ => ⟨Nat.le_refl f, by simp [deepCopy, RVal.ids]⟩
  | .rStr _ => ⟨Nat.le_refl f, by simp [deepCopy, RVal.ids]⟩
  | .rInt _ => ⟨Nat.le_refl f, by simp [deepCopy, RVal.ids]⟩
  | .rPtrNil => ⟨Nat.le_refl f, by simp [deepCopy, RVal.ids]⟩
  | .rIfaceNil => ⟨Nat.le_refl f, by simp [deepCopy, RVal.ids]⟩
  | .rSliceNil => ⟨Nat.le_refl f, by simp [deepCopy, RVal.ids]⟩
  | .rMapNil => ⟨Nat.le_refl f, by simp [deepCopy, RVal.ids]⟩
  | .rPtr id p => by
      obtain ⟨ihm, ihb⟩ := dc_lb p f
      cases hdc : deepCopy f p with
      | mk c f' =>
          simp [hdc] at ihm ihb
          refine ⟨by simp [deepCopy, hdc]; omega, ?_⟩
          intro j hj
          simp [deepCopy, hdc, RVal.ids] at hj
          rcases hj with rfl | hj
          · omega
          · exact ihb j hj
  | .rIface w => by
      obtain ⟨ihm, ihb⟩ := dc_lb w f
      cases hdc : deepCopy f w with
      | mk c f' =>
          simp [hdc] at ihm ihb
          refine ⟨by simp [deepCopy, hdc]; omega, ?_⟩
          intro j hj
          simp [deepCopy, hdc, RVal.ids] at hj
          exact ihb j hj
  | .rSlice id es => by
      obtain ⟨ihm, ihb⟩ := dc_lbL es f
      cases hdc : deepCopyL f es with
      | mk cs f' =>
          simp [hdc] at ihm ihb
          refine ⟨by simp [deepCopy, hdc]; omega, ?_⟩
          intro j hj
          simp [deepCopy, hdc, RVal.ids] at hj
          rcases hj with rfl | hj
          · omega
          · exact ihb j hj
  | .rMap id ps => by
      obtain ⟨ihm, ihb⟩ := dc_lbP ps f
      cases hdc : deepCopyP f ps with
      | mk cs f' =>
          simp [hdc] at ihm ihb
          refine ⟨by simp [deepCopy, hdc]; omega, ?_⟩
          intro j hj
          simp [deepCopy, hdc, RVal.ids] at hj
          rcases hj with rfl | hj
          · omega
          · exact ihb j hj
  | .rArr es => by
      obtain ⟨ihm, ihb⟩ := dc_lbL es f
      cases hdc : deepCopyL f es with
      | mk cs f' =>
          simp [hdc] at ihm ihb
          refine ⟨by simp [deepCopy, hdc]; omega, ?_⟩
          intro j hj
          simp [deepCopy, hdc, RVal.ids] at hj
          exact ihb j hj
  | .rStructR fs => by
      obtain ⟨ihm, ihb⟩ := dc_lbF fs f
      cases hdc : deepCopyF f fs with
      | mk cs f' =>
          simp [hdc] at ihm ihb
          refine ⟨by simp [deepCopy, hdc]; omega, ?_⟩
          intro j hj
          simp [deepCopy, hdc, RVal.ids] at hj
          exact ihb j hj
  termination_by structural v

lemma dc_lbL (es : RList) (f : Nat) :
    f ≤ (deepCopyL f es).2 ∧ ∀ j, j ∈ idsL ((deepCopyL f es).1) → f ≤ j :=
  match es with
  | .nil => ⟨Nat.le_refl f, by simp [deepCopyL, idsL]⟩
  | .cons e tl => by
      obtain ⟨m1, b1⟩ := dc_lb e f
      cases hdc : deepCopy f e with
      | mk c f' =>
          obtain ⟨m2, b2⟩ := dc_lbL tl f'
          cases hdl : deepCopyL f' tl with
          | mk cs f'' =>
              simp [hdc] at m1 b1
              simp [hdl] at m2 b2
              refine ⟨by simp [deepCopyL, hdc, hdl]; omega, ?_⟩
              intro j hj
              simp [deepCopyL, hdc, hdl, idsL] at hj
              rcases hj with hj | hj
              · exact b1 j hj
              · exact Nat.le_trans m1 (b2 j hj)
  termination_by structural es

lemma dc_lbP (ps : RPairs) (f : Nat) :
    f ≤ (deepCopyP f ps).2 ∧ ∀ j, j ∈ idsP ((deepCopyP f ps).1) → f ≤ j :=
  match ps with
  | .nil => ⟨Nat.le_refl f, by simp [deepCopyP, idsP]⟩
  | .cons k v tl => by
      obtain ⟨m1, b1⟩ := dc_lb v f
      cases hdc : deepCopy f v with
      | mk c f' =>
          obtain ⟨m2, b2⟩ := dc_lbP tl f'
          cases hdl : deepCopyP f' tl with
          | mk cs f'' =>
              simp [hdc] at m1 b1
              simp [hdl] at m2 b2
              refine ⟨by simp [deepCopyP, hdc, hdl]; omega, ?_⟩
              intro j hj
              simp [deepCopyP, hdc, hdl, idsP] at hj
              rcases hj with hj | hj
              · exact b1 j hj
              · exact Nat.le_trans m1 (b2 j hj)
  termination_by structural ps

lemma dc_lbF (fs : RFields) (f : Nat) :
    f ≤ (deepCopyF f fs).2 ∧ ∀ j, j ∈ idsF ((deepCopyF f fs).1) → f ≤ j :=
  match fs with
  | .nil => ⟨Nat.le_refl f, by simp [deepCopyF, idsF]⟩
  | .cons n set v tl => by
      by_cases hset : set = true
      · subst hset
        obtain ⟨m1, b1⟩ := dc_lb v f
        cases hdc : deepCopy f v with
        | mk c f' =>
            obtain ⟨m2, b2⟩ := dc_lbF tl f'
            cases hdl : deepCopyF f' tl with
            | mk cs f'' =>
                simp [hdc] at m1 b1
                simp [hdl] at m2 b2
                refine ⟨by simp [deepCopyF, hdc, hdl]; omega, ?_⟩
                intro j hj
                simp [deepCopyF, hdc, hdl, idsF] at hj
                rcases hj with hj | hj
                · exact b1 j hj
                · exact Nat.le_trans m1 (b2 j hj)
      · obtain ⟨m2, b2⟩ := dc_lbF tl f
        cases hdl : deepCopyF f tl with
        | mk cs f' =>
            simp [hdl] at m2 b2
            have hz := ids_zeroLike v
            refine ⟨by simp [deepCopyF, hset, hdl]; omega, ?_⟩
            intro j hj
            simp [deepCopyF, hset, hdl, idsF, hz] at hj
            exact b2 j hj
  termination_by structural fs
end

mutual
/-- A store into a storage the value does not reference leaves the
value unchanged. -/
lemma mutate_id (v : RVal) (loc : Nat) (w : RWrite) (h : loc ∉ RVal.ids v) :
    mutate loc w v = v :=
  match v with
  | .rBool _ => rfl
  | .rStr _ => rfl
  | .rInt _ => rfl
  | .rPtrNil => rfl
  | .rIfaceNil => rfl
  | .rSliceNil => rfl
  | .rMapNil => rfl
  | .rPtr id p => by
      simp only [RVal.ids, List.mem_cons, not_or] at h
      obtain ⟨h1, h2⟩ := h
      have hne : ¬ id = loc := fun e => h1 e.symm
      simp [mutate, hne, mutate_id p loc w h2]
  | .rIface iv => by
      simp only [RVal.ids] at h
      simp [mutate, mutate_id iv loc w h]
  | .rSlice id es => by
      simp only [RVal.ids, List.mem_cons, not_or] at h
      obtain ⟨h1, h2⟩ := h
      have hne : ¬ id = loc := fun e => h1 e.symm
      simp [mutate, hne, mutate_idL es loc w h2]
  | .rMap id ps => by
      simp only [RVal.ids, List.mem_cons, not_or] at h
      obtain ⟨h1, h2⟩ := h
      have hne : ¬ id = loc := fun e => h1 e.symm
      simp [mutate, hne, mutate_idP ps loc w h2]
  | .rArr es => by
      simp only [RVal.ids] at h
      simp [mutate, mutate_idL es loc w h]
  | .rStructR fs => by
      simp only [RVal.ids] at h
      simp [mutate, mutate_idF fs loc w h]
  termination_by structural v

lemma mutate_idL (es : RList) (loc : Nat) (w : RWrite) (h : loc ∉ idsL es) :
    mutateL loc w es = es :=
  match es with
  | .nil => rfl
  | .cons e tl => by
      simp only [idsL, List.mem_append, not_or] at h
      simp [mutateL, mutate_id e loc w h.1, mutate_idL tl loc w h.2]
  termination_by structural es

lemma mutate_idP (ps : RPairs) (loc : Nat) (w : RWrite) (h : loc ∉ idsP ps) :
    mutateP loc w ps = ps :=
  match ps with
  | .nil => rfl
  | .cons k v tl => by
      simp only [idsP, List.mem_append, not_or] at h
      simp [mutateP, mutate_id v loc w h.1, mutate_idP tl loc w h.2]
  termination_by structural ps

lemma mutate_idF (fs : RFields) (loc : Nat) (w : RWrite) (h : loc ∉ idsF fs) :
    mutateF loc w fs = fs :=
  match fs with
  | .nil => rfl
  | .cons n set v tl => by
      simp only [idsF, List.mem_append, not_or] at h
      simp [mutateF, mutate_id v loc w h.1, mutate_idF tl loc w h.2]
  termination_by structural fs
end

/-- The string held by a struct's first field (projection used to
separate two structurally different values). -/
def firstFieldStr : RVal → String
  | .rStructR (.cons _ _ (.rStr s) _) => s
  | _ => ""

/-- C9 counterexample: a struct with an unexported (non-settable)
string field holding `x` is not copied structurally — `deepCopy` skips
fields the copy cannot set (`if !cpy.Field(i).CanSet() { continue }`),
so the copy's field stays at the zero value `""` and the copy is not
structurally equal to the original. -/
theorem deepCopy_unexported_counterexample :
    RVal.erase ((deepCopy 0 (.rStructR (.cons "u" false (.rStr "x") .nil))).1) ≠
      RVal.erase (.rStructR (.cons "u" false (.rStr "x") .nil)) :=
  fun h => absurd (congrArg firstFieldStr h) (by decide)

/-- C9 (amended): for a record all of whose struct fields are settable
(exported), `deepCopy` returns a structurally equal record — equal once
the invisible storage identities are erased; unconditionally, every
backing-storage id of the copy is fresh (not among the original's ids,
given a counter above them), a store into a storage the original does
not reference leaves the original unchanged, and hence any store into
any of the copy's backing storages leaves the original unchanged. -/
theorem deepCopy_isolation :
    (∀ (r : RVal) (f : Nat), r.allSettable = true →
      RVal.erase ((deepCopy f r).1) = RVal.erase r) ∧
    (∀ (r : RVal) (f i : Nat), (∀ x ∈ RVal.ids r, x < f) →
      i ∈ RVal.ids ((deepCopy f r).1) → i ∉ RVal.ids r) ∧
    (∀ (r : RVal) (loc : Nat) (w : RWrite), loc ∉ RVal.ids r → mutate loc w r = r) ∧
    (∀ (r : RVal) (f loc : Nat) (w : RWrite), (∀ x ∈ RVal.ids r, x < f) →
      loc ∈ RVal.ids ((deepCopy f r).1) → mutate loc w r = r) := by
  refine ⟨fun r f h => erase_deepCopy r f h, ?_, fun r loc w h => mutate_id r loc w h, ?_⟩
  · intro r f i hb hi hmem
    have h1 := (dc_lb r f).2 i hi
    have h2 := hb i hmem
    omega
  · intro r f loc w hb hl
    refine mutate_id r loc w fun hmem => ?_
    have h1 := (dc_lb r f).2 loc hl
    have h2 := hb loc hmem
    omega

/-- C9 witness: copying `&"a"` (a pointer with storage id 0) with fresh
counter 1 yields an erased-equal copy whose single storage id 1 is not
the original's, and a store through id 1 leaves the original
unchanged. -/
theorem deepCopy_isolation_witness :
    RVal.erase ((deepCopy 1 (.rPtr 0 (.rStr "a"))).1) = RVal.erase (.rPtr 0 (.rStr "a")) ∧
    (1 : Nat) ∉ RVal.ids (.rPtr 0 (.rStr "a")) ∧
    mutate 1 (.wPtr (.rStr "z")) (.rPtr 0 (.rStr "a")) = .rPtr 0 (.rStr "a") :=
  ⟨deepCopy_isolation.1 (.rPtr 0 (.rStr "a")) 1 (by decide),
   deepCopy_isolation.2.1 (.rPtr 0 (.rStr "a")) 1 1 (by decide) (by decide),
   deepCopy_isolation.2.2.2 (.rPtr 0 (.rStr "a")) 1 1 (.wPtr (.rStr "z"))
     (by decide) (by decide)⟩

end Idsec
